import Mathlib

/-!
Verification development for the hearthstone-parser repository.

The TypeScript sources are shallowly embedded as executable Lean
definitions: the mutable `GameState` class becomes an immutable record,
in-place mutation of objects found by `Array.prototype.find` becomes a
first-match update on a list, JavaScript objects used as string-keyed maps
become association lists (lodash `merge` assigns the source keys over the
destination keys in order, which `upsertAllA` mirrors), and `Date.now()`
becomes an explicit `now : Int` parameter.  External data tables
(`data/cards`, `data/quests`, `data/secrets`) that live outside the core
are passed to the zone-change handler as parameters.
-/

set_option autoImplicit false

namespace HSP

/-- Side of the board, `"top" | "bottom"` in the source. -/
inductive Pos where
  | top
  | bottom
deriving DecidableEq, Repr, Inhabited

/-- The `Team` enum from `line-parsers-v2/consts.ts`. -/
inductive Team where
  | Friendly
  | Opposing
deriving DecidableEq, Repr, Inhabited

/-- The `Zone` enum from `line-parsers-v2/consts.ts`; `other` stands for any
captured zone string that is none of the three named values (the regex
captures are `.*`), so that the handler's equality tests come out false. -/
inductive Zone where
  | Deck
  | Hand
  | Secret
  | other
deriving DecidableEq, Repr, Inhabited

/-- `CardState` from `game-state.ts`. -/
inductive CardState where
  | DECK
  | HAND
  | OTHERS
deriving DecidableEq, Repr, Inhabited

/-- `EntityTags` from `entity.ts`. -/
inductive EntityTags where
  | canCorrupt
  | corrupt
deriving DecidableEq, Repr, Inhabited

/-- `MatchLogType` from `match-log.ts`. -/
inductive MatchLogType where
  | attack
  | play
  | trigger
deriving DecidableEq, Repr, Inhabited

/-- `CardEntity` from `entity.ts` (the constant `type: "card"` discriminant
is omitted; the tag map is an association list in object-key order). -/
@[ext] structure CardEntity where
  cardId : Option Nat
  cardName : String
  entityId : Nat
  player : Pos
  tags : List (String × String)
deriving DecidableEq, Repr, Inhabited

/-- The argument type of `GameState.resolveEntity`:
`Pick<CardEntity, "entityId"> & Partial<CardEntity>`.  A `none`/`[]` field
is an absent (undefined) property, which lodash `merge` skips. -/
structure CardEntityPatch where
  entityId : Nat
  cardId : Option Nat := none
  cardName : Option String := none
  player : Option Pos := none
  tags : List (String × String) := []
deriving DecidableEq, Repr

/-- `EntityProps` from `entity.ts`. -/
@[ext] structure EntityProps where
  entityId : Nat
  cardId : Option Nat := none
  cardName : String
  player : Pos
  damage : Option Int := none
  healing : Option Int := none
  dead : Option Bool := none
  tags : Option (List EntityTags) := none
deriving DecidableEq, Repr, Inhabited

/-- `MatchLogEntry` from `match-log.ts`. -/
@[ext] structure MatchLogEntry where
  type : MatchLogType
  manaSpent : Int := 0
  source : EntityProps
  targets : List EntityProps
deriving DecidableEq, Repr, Inhabited

/-- `Secret` from `game-state.ts` (`Class` is modelled as a string). -/
@[ext] structure Secret where
  entityId : Nat
  cardId : String
  cardClass : String
  cardName : String
  timestamp : Int
deriving DecidableEq, Repr, Inhabited

/-- `Quest` from `game-state.ts`; the source field `class` is spelled
`questClass` because `class` is a Lean keyword. -/
@[ext] structure Quest where
  entityId : Nat
  cardName : String
  questClass : String
  progress : Int
  requirement : Int
  sidequest : Bool
  timestamp : Int
deriving DecidableEq, Repr, Inhabited

/-- A single `turnHistory` record of a `Player`. -/
@[ext] structure TurnRecord where
  startTime : Int
  duration : Option Int := none
deriving DecidableEq, Repr, Inhabited

/-- `Discovery` from `game-state.ts`. -/
@[ext] structure Discovery where
  enabled : Bool
  id : Option String
  source : Option EntityProps := none
  chosen : Option EntityProps := none
  options : List EntityProps
deriving DecidableEq, Repr, Inhabited

/-- `Card` from `game-state.ts`. -/
@[ext] structure Card where
  entityId : Nat
  cardId : Option Nat := none
  cardName : Option String := none
  state : CardState
  isSpawnedCard : Bool
  tags : List EntityTags
deriving DecidableEq, Repr, Inhabited

/-- `Player` from `game-state.ts`, field order as in the source. -/
@[ext] structure Player where
  id : Nat
  name : String
  status : String
  turn : Bool
  turnHistory : List TurnRecord
  quests : List Quest
  timeout : Int
  cardCount : Int
  cards : List Card
  position : Pos
  secrets : List Secret
  discovery : Discovery
  discoverHistory : List Discovery
  cardsReplacedInMulligan : Int
  availableMana : Int
  manaSpent : Int
deriving DecidableEq, Repr, Inhabited

/-- `GameState` from `game-state.ts`.  The `entities` object becomes an
association list from entity id to the last-known `CardEntity` fact, and
the private `#missingEntityIds` set becomes a duplicate-free list.
Fields that the TypeScript class leaves `undefined` until first assignment
are modelled with the zero/false default of their type. -/
@[ext] structure GameState where
  startTime : Int
  matchDuration : Int
  playerCount : Nat
  gameOverCount : Nat
  players : List Player
  beginPhaseActive : Bool
  mulliganActive : Bool
  turnStartTime : Int
  matchLog : List MatchLogEntry
  entities : List (Nat × CardEntity)
  missingEntityIds : List Nat
deriving DecidableEq, Repr, Inhabited

/-- The sentinel `UNKNOWN_CARDNAME` constant of `game-state.ts`. -/
def UNKNOWN_CARDNAME : String := "UNKNOWN ENTITY [cardType=INVALID]"

/-- The `isEmpty` helper of `game-state.ts` on a present string
(`!cardName || cardName === UNKNOWN_CARDNAME`). -/
def isEmptyS (cardName : String) : Bool :=
  cardName == "" || cardName == UNKNOWN_CARDNAME

/-- The `isEmpty` helper of `game-state.ts` on an optional string. -/
def isEmptyO (cardName : Option String) : Bool :=
  match cardName with
  | none => true
  | some s => isEmptyS s

section AssocList

variable {κ α : Type} [DecidableEq κ]

/-- First-match lookup in an association list: JavaScript object property
access (object keys are unique, so first match is the match). -/
def lookupA : List (κ × α) → κ → Option α
  | [], _ => none
  | p :: t, k => if p.1 = k then some p.2 else lookupA t k

/-- Whether a key is present in an association list. -/
def containsKeyA : List (κ × α) → κ → Bool
  | [], _ => false
  | p :: t, k => if p.1 = k then true else containsKeyA t k

/-- Replace the value stored at a key (all occurrences), keeping positions:
the effect of `obj[key] = value` when the key already exists. -/
def mapK (d : List (κ × α)) (k : κ) (v : α) : List (κ × α) :=
  d.map (fun p => if p.1 = k then (k, v) else p)

/-- The effect of one JavaScript property assignment `obj[key] = value`:
update in place when the key exists, append otherwise. -/
def upsertA (d : List (κ × α)) (k : κ) (v : α) : List (κ × α) :=
  if containsKeyA d k then mapK d k v else d ++ [(k, v)]

/-- Assign every key of `s` over `d`, in order: the shape of one level of a
lodash `merge(d, s)` on plain string-valued objects. -/
def upsertAllA : List (κ × α) → List (κ × α) → List (κ × α)
  | d, [] => d
  | d, p :: t => upsertAllA (upsertA d p.1 p.2) t

/-- The value the last assignment of a key in `s` would leave behind. -/
def lastValA (s : List (κ × α)) (k : κ) : Option α :=
  lookupA s.reverse k

end AssocList

/-- `identifySpecialTags` from `entity.ts`. -/
def identifySpecialTags (entity : Option CardEntity) : Option (List EntityTags) :=
  match entity with
  | none => none
  | some e =>
    let tags : List EntityTags :=
      if lookupA e.tags "CORRUPTEDCARD" = some "1" then [EntityTags.corrupt]
      else if lookupA e.tags "CORRUPT" = some "1" then [EntityTags.canCorrupt]
      else []
    if tags.isEmpty then none else some tags

/-- Update the first element satisfying `pred` with `f`: the embedding of
"find the object in the array, then mutate it in place". -/
def updateFirst {α : Type} : List α → (α → Bool) → (α → α) → List α
  | [], _, _ => []
  | x :: t, pred, f => if pred x then f x :: t else x :: updateFirst t pred f

/-- `newPlayer` from `game-state.ts`. -/
def newPlayer (id : Nat) (name : String) : Player :=
  { id := id
    name := name
    status := ""
    turn := false
    turnHistory := []
    timeout := 45
    cardCount := 0
    cards := []
    position := Pos.bottom
    secrets := []
    quests := []
    discovery := { enabled := false, id := none, options := [] }
    discoverHistory := []
    cardsReplacedInMulligan := 0
    availableMana := 0
    manaSpent := 0 }

/-- The in-place field updates of `putCards` on an already-present card.
The truthiness tests of the source are kept: a `cardId` of `0`, a
`cardName` of `""` and an absent field are all falsy and skip the
corresponding update. -/
def putCardsUpd (cardId : Option Nat) (cardName : Option String)
    (state : Option CardState) (c : Card) : Card :=
  let c := match cardId with
    | some cid => if cid ≠ 0 then { c with cardId := some cid } else c
    | none => c
  let c := match cardName with
    | some nm => if nm ≠ "" then { c with cardName := some nm } else c
    | none => c
  let c := match state with
    | some st => { c with state := st }
    | none => c
  c

/-- `putCards` from `game-state.ts`: update the card in the list or push
one if there is not one already; the push branch requires a present
`state` and a present (`typeof !== "undefined"`) `isSpawnedCard`. -/
def putCards (cardList : List Card) (entityId : Nat) (cardId : Option Nat)
    (cardName : Option String) (isSpawnedCard : Option Bool)
    (state : Option CardState) : List Card :=
  match cardList.find? (fun c => c.entityId == entityId) with
  | some _ =>
    updateFirst cardList (fun c => c.entityId == entityId)
      (putCardsUpd cardId cardName state)
  | none =>
    match state, isSpawnedCard with
    | some st, some sp =>
      cardList ++ [{ entityId := entityId, cardId := cardId, cardName := cardName,
                     state := st, isSpawnedCard := sp, tags := [] }]
    | _, _ => cardList

/-- `GameState.getPlayerById`. -/
def GameState.getPlayerById (gs : GameState) (id : Nat) : Option Player :=
  gs.players.find? (fun p => p.id == id)

/-- `GameState.getPlayerByPosition`. -/
def GameState.getPlayerByPosition (gs : GameState) (position : Pos) : Option Player :=
  gs.players.find? (fun p => p.position == position)

/-- `GameState.getPlayerByName`. -/
def GameState.getPlayerByName (gs : GameState) (name : String) : Option Player :=
  gs.players.find? (fun p => p.name == name)

/-- The position a team maps to in `GameState.getPlayerByTeam`. -/
def teamPos : Team → Pos
  | Team.Friendly => Pos.bottom
  | Team.Opposing => Pos.top

/-- `GameState.getPlayerByTeam`; the argument is optional because the
zone-change handler passes a possibly-undefined regex capture, which falls
through the switch to `undefined`. -/
def GameState.getPlayerByTeam (gs : GameState) : Option Team → Option Player
  | some t => gs.getPlayerByPosition (teamPos t)
  | none => none

/-- A fresh `GameState`, as left by the constructor running `reset()`;
numeric fields the class never initialises are modelled as `0`. -/
def initGameState : GameState :=
  { startTime := 0
    matchDuration := 0
    playerCount := 0
    gameOverCount := 0
    players := []
    beginPhaseActive := true
    mulliganActive := false
    turnStartTime := 0
    matchLog := []
    entities := []
    missingEntityIds := [] }

/-- `GameState.reset`. -/
def GameState.reset (gs : GameState) : GameState :=
  { gs with players := [], matchLog := [], beginPhaseActive := true,
            gameOverCount := 0, entities := [], missingEntityIds := [] }

/-- `GameState.start` (`Date.now()` is the explicit `now`). -/
def GameState.start (gs : GameState) (now : Int) : GameState :=
  { gs.reset with startTime := now }

/-- Add an id to the `#missingEntityIds` set. -/
def addMissing (l : List Nat) (x : Nat) : List Nat :=
  if l.contains x then l else l ++ [x]

/-- `GameState.addMatchLogEntry`. -/
def GameState.addMatchLogEntry (gs : GameState) (entries : List MatchLogEntry) :
    GameState :=
  let missing := entries.foldl (fun m entry =>
    let m := if isEmptyS entry.source.cardName then addMissing m entry.source.entityId else m
    entry.targets.foldl (fun m t =>
      if isEmptyS t.cardName then addMissing m t.entityId else m) m) gs.missingEntityIds
  { gs with missingEntityIds := missing, matchLog := gs.matchLog ++ entries }

/-- The lodash `merge({type, tags: {}, player: "bottom", cardName: ""},
existing, entity)` of `GameState.resolveEntity`, spelled out field by
field: a present (defined) incoming field is assigned over the existing
one — even an empty string — while an absent incoming field keeps the
existing value (or the default when nothing exists); the `tags` objects
are merged key by key. -/
def mergeCardEntity (existing : Option CardEntity) (e : CardEntityPatch) : CardEntity :=
  { entityId := e.entityId
    cardId := match e.cardId with
      | some c => some c
      | none => match existing with
        | some ex => ex.cardId
        | none => none
    cardName := match e.cardName with
      | some s => s
      | none => match existing with
        | some ex => ex.cardName
        | none => ""
    player := match e.player with
      | some q => q
      | none => match existing with
        | some ex => ex.player
        | none => Pos.bottom
    tags := upsertAllA (match existing with
      | some ex => ex.tags
      | none => []) e.tags }

/-- A source/target snapshot overwritten by the resolved
`{entityId, cardName, cardId}` triple (the `newProps` spread), all other
snapshot fields kept. -/
def resolvedProps (eid : Nat) (nm : String) (cid : Option Nat) (pr : EntityProps) :
    EntityProps :=
  { pr with entityId := eid, cardName := nm, cardId := cid }

/-- The in-place patch `entry.source = {...entry.source, ...newProps}` of
`GameState.resolveEntity`, applied to one source/target snapshot. -/
def patchProps (eid : Nat) (nm : String) (cid : Option Nat) (pr : EntityProps) :
    EntityProps :=
  if isEmptyS pr.cardName && pr.entityId == eid then resolvedProps eid nm cid pr
  else pr

/-- One match-log entry after `GameState.resolveEntity`'s walk. -/
def patchEntry (eid : Nat) (nm : String) (cid : Option Nat) (entry : MatchLogEntry) :
    MatchLogEntry :=
  { entry with source := patchProps eid nm cid entry.source,
               targets := entry.targets.map (patchProps eid nm cid) }

/-- The per-card refresh of `GameState.resolveEntity`: a card referencing
the resolved entity gets its derived tags replaced when
`identifySpecialTags` yields some, and is left alone otherwise. -/
def refreshCardTags (entities : List (Nat × CardEntity)) (eid : Nat) (c : Card) : Card :=
  if c.entityId == eid then
    match identifySpecialTags (lookupA entities c.entityId) with
    | some ts => { c with tags := ts }
    | none => c
  else c

/-- `GameState.resolveEntity` from `game-state.ts`. -/
def GameState.resolveEntity (gs : GameState) (e : CardEntityPatch) : GameState :=
  let existing := lookupA gs.entities e.entityId
  let newEntity := mergeCardEntity existing e
  let entities1 := upsertA gs.entities e.entityId newEntity
  let players1 := gs.players.map (fun p =>
    { p with cards := p.cards.map (refreshCardTags entities1 e.entityId) })
  let gs1 := { gs with entities := entities1, players := players1 }
  if isEmptyS newEntity.cardName || !(gs.missingEntityIds.contains e.entityId) then gs1
  else { gs1 with matchLog :=
    gs1.matchLog.map (patchEntry e.entityId newEntity.cardName newEntity.cardId) }

/-- Close the last entry of a turn history:
`lastTurn.duration = Date.now() - lastTurn.startTime`. -/
def closeLast : List TurnRecord → Int → List TurnRecord
  | [], _ => []
  | [t], now => [{ t with duration := some (now - t.startTime) }]
  | t :: ts, now => t :: closeLast ts now

/-- Modelled from the spec: `DECK_CARD_COUNT` is imported from the static
data module `data/meta`, which is outside the core source; the spec fixes
the deck size at 30 (`deckSize=30`). -/
def DECK_CARD_COUNT : Int := 30

/-- The `mulligan-result` matchesHandler of `line-parsers-v2/index.ts`. -/
def mulliganResultHandler (name : String) (cardsLeft : Int) (gs : GameState) :
    GameState × Bool :=
  if !gs.mulliganActive then (gs, false)
  else
    match gs.getPlayerByName name with
    | none => (gs, false)
    | some _ =>
      ({ gs with players := (updateFirst gs.players (fun p => p.name == name)
          (fun p => { p with cardsReplacedInMulligan :=
            DECK_CARD_COUNT - p.cardCount - cardsLeft })) }, true)

/-- The `turn-change` matchesHandler of `line-parsers-v2/index.ts`.
`turnValue` is the raw `value=(\d+)` capture, compared against `"1"`;
the found player and its first opponent are mutated in place, which is a
first-match update here. -/
def turnChangeHandler (playerName turnValue : String) (gs : GameState) (now : Int) :
    GameState × Bool :=
  match gs.getPlayerByName playerName with
  | none => (gs, false)
  | some player =>
    let newTurn := turnValue == "1"
    let players := updateFirst gs.players (fun p => p.name == playerName)
      (fun p => { p with turn := newTurn })
    let players := match players.find? (fun p => !(p.id == player.id)) with
      | some _ => updateFirst players (fun p => !(p.id == player.id))
          (fun p => { p with turn := !newTurn })
      | none => players
    let players :=
      if newTurn then
        updateFirst players (fun p => p.name == playerName)
          (fun p => { p with turnHistory := p.turnHistory ++ [{ startTime := now }] })
      else
        updateFirst players (fun p => p.name == playerName)
          (fun p => { p with turnHistory := closeLast p.turnHistory now })
    ({ gs with players := players }, true)

/-- The status-setting prefix of the `game-over` matchesHandler: when the
named player is registered and the captured status is one of the three
terminal values, it is written to that player's `status` field. -/
def gameOverStatusPlayers (playerName status : String) (gs : GameState) :
    List Player :=
  match gs.getPlayerByName playerName with
  | some _ =>
    if status == "WON" || status == "LOST" || status == "TIED" then
      updateFirst gs.players (fun p => p.name == playerName)
        (fun p => { p with status := status })
    else gs.players
  | none => gs.players

/-- The `game-over` matchesHandler of `line-parsers-v2/index.ts`:
sets the named player's status when the player is registered, then
unconditionally increments `gameOverCount`; from the second occurrence on
it closes the current turn holder's last turn and stamps
`matchDuration = now - startTime`, and it always returns `true`. -/
def gameOverHandler (playerName status : String) (gs : GameState) (now : Int) :
    GameState × Bool :=
  let players := gameOverStatusPlayers playerName status gs
  let gameOverCount := gs.gameOverCount + 1
  if 2 ≤ gameOverCount then
    let players2 := match players.find? (fun p => p.turn) with
      | some _ => updateFirst players (fun p => p.turn)
          (fun p => { p with turnHistory := closeLast p.turnHistory now })
      | none => players
    ({ gs with players := players2, gameOverCount := gameOverCount,
               matchDuration := now - gs.startTime }, true)
  else ({ gs with players := players, gameOverCount := gameOverCount }, true)

/-- The `CardType` records of the external `data/cards` table. -/
structure CardType where
  dbfId : Nat
  id : String
  name : String
deriving DecidableEq, Repr

/-- The quest templates of the external `data/quests` table: the fields a
template contributes to a pushed `Quest` record. -/
structure QuestTemplate where
  questClass : String
  requirement : Int
  sidequest : Bool
deriving DecidableEq, Repr

/-- The named captures of the `zone-change` regex, after `parseInt`.
The `fromTeam`/`fromZone`/`toTeam`/`toZone` captures are optional in the
pattern, hence `Option` fields; an unrecognised zone string is
`Zone.other`. -/
structure ZoneChangeGroups where
  entityName : String
  entityId : Nat
  cardId : String
  playerId : Nat
  fromTeam : Option Team
  fromZone : Option Zone
  toTeam : Option Team
  toZone : Option Zone
deriving DecidableEq, Repr

/-- The mulligan-phase position assignment block of the zone-change
handler: `player.position`/`opponentPlayer.position` are mutated through
the references found by id before the block ran. -/
def assignPositions (toTeam : Option Team) (playerId : Nat) (players : List Player) :
    List Player :=
  let players :=
    if toTeam == some Team.Friendly then
      updateFirst
        (updateFirst players (fun p => p.id == playerId)
          (fun p => { p with position := Pos.bottom }))
        (fun p => !(p.id == playerId)) (fun p => { p with position := Pos.top })
    else players
  let players :=
    if toTeam == some Team.Opposing then
      updateFirst
        (updateFirst players (fun p => p.id == playerId)
          (fun p => { p with position := Pos.top }))
        (fun p => !(p.id == playerId)) (fun p => { p with position := Pos.bottom })
    else players
  players

/-- The `if (fromPlayer) { ... }` body of the zone-change handler, as a
pure function on the source-team player. -/
def zoneApplyFrom (questMap : String → Option QuestTemplate)
    (secretToClass : String → Option String) (g : ZoneChangeGroups)
    (cardDbfId : Nat) (p : Player) : Player :=
  let p :=
    if g.fromZone == some Zone.Deck || g.fromZone == some Zone.Hand then
      { p with cards := (putCards p.cards g.entityId (some cardDbfId)
          (some g.entityName) none (some CardState.OTHERS)) }
    else p
  let p :=
    if g.fromZone == some Zone.Deck then { p with cardCount := p.cardCount - 1 } else p
  let p :=
    if g.fromZone == some Zone.Secret then
      let p := if (questMap g.cardId).isSome then
          { p with quests := p.quests.filter (fun q => !(q.entityId == g.entityId)) }
        else p
      let p := if (secretToClass g.cardId).isSome then
          { p with secrets := p.secrets.filter (fun s => !(s.entityId == g.entityId)) }
        else p
      p
    else p
  p

/-- The `if (toPlayer) { ... }` body of the zone-change handler, as a pure
function on the destination-team player. -/
def zoneApplyTo (questMap : String → Option QuestTemplate)
    (secretToClass : String → Option String) (g : ZoneChangeGroups)
    (cardDbfId : Nat) (mulliganActive : Bool) (now : Int) (p : Player) : Player :=
  let p :=
    match g.toZone with
    | some Zone.Deck =>
      { p with cards := (putCards p.cards g.entityId (some cardDbfId)
          (some g.entityName) (some (!mulliganActive)) (some CardState.DECK)) }
    | some Zone.Hand =>
      { p with cards := (putCards p.cards g.entityId (some cardDbfId)
          (some g.entityName) (some (!mulliganActive)) (some CardState.HAND)) }
    | _ => p
  let p :=
    if g.toZone == some Zone.Deck then { p with cardCount := p.cardCount + 1 } else p
  let p :=
    if g.toZone == some Zone.Secret then
      let p := match questMap g.cardId with
        | some qt =>
          let q : Quest :=
            { entityId := g.entityId, cardName := g.entityName,
              questClass := qt.questClass, progress := 0,
              requirement := qt.requirement, sidequest := qt.sidequest,
              timestamp := now }
          { p with quests := p.quests ++ [q] }
        | none => p
      let p := match secretToClass g.cardId with
        | some cls =>
          let s : Secret :=
            { entityId := g.entityId, cardId := g.cardId, cardClass := cls,
              cardName := g.entityName, timestamp := now }
          { p with secrets := p.secrets ++ [s] }
        | none => p
      p
    else p
  p

/-- Apply a mutation to the player a team resolves to, if any: the
`getPlayerByTeam` lookup followed by in-place mutation of the found
player. -/
def applyByTeam (players : List Player) (team : Option Team) (f : Player → Player) :
    List Player :=
  match team with
  | none => players
  | some t => updateFirst players (fun p => p.position == teamPos t) f

/-- The `zone-change` matchesHandler of `line-parsers-v2/index.ts`.  The
external tables `data/cards`, `data/quests` and `data/secrets` are
parameters. -/
def zoneChangeHandler (cardData : String → Option CardType)
    (questMap : String → Option QuestTemplate)
    (secretToClass : String → Option String) (g : ZoneChangeGroups)
    (gs : GameState) (now : Int) : GameState × Bool :=
  match cardData g.cardId with
  | none => (gs, false)
  | some cardRawData =>
    let cardDbfId := cardRawData.dbfId
    match gs.getPlayerById g.playerId with
    | none => (gs, false)
    | some player =>
      match gs.players.find? (fun p => !(p.id == player.id)) with
      | none => (gs, false)
      | some _ =>
        let players0 :=
          if gs.mulliganActive &&
              (g.toZone == some Zone.Hand || g.toZone == some Zone.Deck) then
            assignPositions g.toTeam player.id gs.players
          else gs.players
        let players1 := applyByTeam players0 g.fromTeam
          (zoneApplyFrom questMap secretToClass g cardDbfId)
        let players2 := applyByTeam players1 g.toTeam
          (zoneApplyTo questMap secretToClass g cardDbfId gs.mulliganActive now)
        ({ gs with players := players2 }, true)

/-- One of JavaScript's whitespace characters recognised by `\s` (the
subset that matters for log lines). -/
def isJsSpace (c : Char) : Bool :=
  c == ' ' || c == '\t' || c == '\n' || c == '\r'

/-- JavaScript `parseInt(s)` in radix 10: skip leading whitespace, accept
an optional sign, then a digit prefix; `none` is `NaN`. -/
def jsParseInt (s : String) : Option Int :=
  let cs := s.data.dropWhile isJsSpace
  let sgnRest : Int × List Char :=
    match cs with
    | '-' :: t => (-1, t)
    | '+' :: t => (1, t)
    | t => (1, t)
  let ds := sgnRest.2.takeWhile (fun c => c.isDigit)
  if ds.isEmpty then none
  else some (sgnRest.1 * ds.foldl (fun n c => n * 10 + ((c.toNat : Int) - 48)) 0)

/-- The mutable module state closed over by a parser made by
`blockParserFactory`: the single block-state slot and the stored
indentation width. -/
structure BlockPState (σ : Type) where
  blockState : Option σ
  indent : Nat
deriving Repr

/-- One line as seen by a block parser, with the regex work abstracted
into the line's match data: `startMatch` is present exactly when the full
start regex matches (indent capture string, content captures); and
`labelMatch` is present exactly when label + indentation + `/.*/` matches
(its indent capture string).  Both captures come from `(?<indent>\s+)`,
so they consist of whitespace. -/
structure BlockLine (γ : Type) where
  startMatch : Option (String × γ)
  labelMatch : Option String

/-- The result of offering one line to a block parser. -/
structure BlockStepResult (σ : Type) where
  state : BlockPState σ
  gs : GameState
  invoked : Bool
  returned : Bool

/-- The returned line parser of `blockParserFactory` in
`line-parsers-v2/factory.ts`, one line at a time.  Note the source
compares `parseInt(indentMatches.groups.indent)` — `parseInt` of the
whitespace capture — with the stored width. -/
def blockStep {σ γ : Type} (initBlockState : γ → GameState → Option σ)
    (blockLineParser : GameState → σ → GameState × σ) (gs : GameState)
    (st : BlockPState σ) (line : BlockLine γ) : BlockStepResult σ :=
  match line.startMatch with
  | some (ws, caps) =>
    let indent := ws.length
    let bs := match initBlockState caps gs with
      | some s => some s
      | none => st.blockState
    { state := { blockState := bs, indent := indent }, gs := gs,
      invoked := false, returned := false }
  | none =>
    match st.blockState with
    | none => { state := st, gs := gs, invoked := false, returned := false }
    | some s =>
      match line.labelMatch with
      | some ws2 =>
        if jsParseInt ws2 = some (st.indent : Int) then
          let r := blockLineParser gs s
          { state := { st with blockState := some r.2 }, gs := r.1,
            invoked := true, returned := false }
        else { state := st, gs := gs, invoked := false, returned := false }
      | none => { state := st, gs := gs, invoked := false, returned := false }

/-- Split a character list on every line feed (like `split("\n")`). -/
def splitOnNL : List Char → List (List Char)
  | [] => [[]]
  | c :: t =>
    if c = '\n' then [] :: splitOnNL t
    else
      match splitOnNL t with
      | h :: r => (c :: h) :: r
      | [] => [[c]]

/-- Strip one trailing carriage return, for pieces produced by splitting
on a line feed. -/
def stripCR (l : List Char) : List Char :=
  if l.getLast? = some '\r' then l.dropLast else l

/-- Normalise all but the last piece of a `split` result: a piece followed
by a line feed had its optional carriage return consumed by `/\r?\n/`. -/
def stripCRInit : List (List Char) → List (List Char)
  | [] => []
  | [x] => [x]
  | x :: t => stripCR x :: stripCRInit t

/-- The `split-lines` package: `string.split(/\r?\n/)`. -/
def splitLines (s : String) : List String :=
  (stripCRInit (splitOnNL s.data)).map String.mk

/-- `readLogFile` from `utils/read-log-file.ts`.  The file's bytes are the
characters of `fileContent`.  `Buffer.alloc` zero-fills, and a positioned
read at or past end of file reads zero bytes, leaving the zero fill in
place; the source passes `startByte` as the read position even when the
negative-range adjustment has fired. -/
def readLogFile (fileContent : String) (startByte endByte : Int) : List String :=
  let readSize : Int := if endByte - startByte < 0 then endByte else endByte - startByte
  let n := readSize.toNat
  let readBytes := (fileContent.data.drop startByte.toNat).take n
  let buffer := readBytes ++ List.replicate (n - readBytes.length) (Char.ofNat 0)
  splitLines (String.mk buffer)

/-- The loop state of `LogWatcher.parseLines`. -/
structure ParseAcc where
  gs : GameState
  updated : Bool
  lastTurnTime : Int
  events : Nat
deriving Repr

/-- One iteration of the line loop in `LogWatcher.parseLines`: every
parser is run on the line — `lineParser(line, this.gameState);` discards
the returned boolean — and then the turn-boundary emission branch tests
the `updated` flag. -/
def parseLineStep (parsers : List (String → GameState → GameState × Bool))
    (updateEveryTurn : Bool) (acc : ParseAcc) (line : String) : ParseAcc :=
  let gs := parsers.foldl (fun g pr => (pr line g).1) acc.gs
  if acc.updated && updateEveryTurn && !(gs.turnStartTime == acc.lastTurnTime) then
    { gs := gs, updated := false, lastTurnTime := gs.turnStartTime,
      events := acc.events + 1 }
  else { acc with gs := gs }

/-- `LogWatcher.parseLines`: the resulting game state and the number of
`"gamestate-changed"` emissions for the batch (per-turn ones plus the
final `if (updated)` one). -/
def parseLines (parsers : List (String → GameState → GameState × Bool))
    (updateEveryTurn : Bool) (gs0 : GameState) (lines : List String) :
    GameState × Nat :=
  let acc := lines.foldl (parseLineStep parsers updateEveryTurn)
    { gs := gs0, updated := false, lastTurnTime := gs0.turnStartTime, events := 0 }
  (acc.gs, if acc.updated then acc.events + 1 else acc.events)

section AssocListLemmas

variable {κ α : Type} [DecidableEq κ]

theorem containsKeyA_mapK (d : List (κ × α)) (k k' : κ) (v : α) :
    containsKeyA (mapK d k v) k' = containsKeyA d k' := by
  induction d with
  | nil => rfl
  | cons p t ih =>
    by_cases h : p.1 = k
    · subst h
      by_cases h' : p.1 = k' <;> simp [mapK, containsKeyA, h', ih] at ih ⊢
    · by_cases h' : p.1 = k'
      · simp only [mapK, List.map_cons, containsKeyA, if_neg h, if_pos h']
      · simp only [mapK, List.map_cons, containsKeyA, if_neg h, if_neg h']
        exact ih

theorem containsKeyA_append (d e : List (κ × α)) (k : κ) :
    containsKeyA (d ++ e) k = (containsKeyA d k || containsKeyA e k) := by
  induction d with
  | nil => simp [containsKeyA]
  | cons p t ih => by_cases h : p.1 = k <;> simp [containsKeyA, h, ih]

theorem containsKeyA_upsertA (d : List (κ × α)) (k k' : κ) (v : α) :
    containsKeyA (upsertA d k v) k' = (containsKeyA d k' || decide (k = k')) := by
  unfold upsertA
  by_cases hc : containsKeyA d k = true
  · rw [if_pos hc, containsKeyA_mapK]
    by_cases he : k = k'
    · subst he; simp [hc]
    · simp [he]
  · rw [if_neg hc, containsKeyA_append]
    by_cases he : k = k' <;> simp [containsKeyA, he]

theorem containsKeyA_upsertA_self (d : List (κ × α)) (k : κ) (v : α) :
    containsKeyA (upsertA d k v) k = true := by
  rw [containsKeyA_upsertA]; simp

/-- All pairs of `d` keyed by `k` carry the value `v`. -/
def PallK (d : List (κ × α)) (k : κ) (v : α) : Prop :=
  ∀ p ∈ d, p.1 = k → p.2 = v

theorem not_key_of_containsKeyA_eq_false {d : List (κ × α)} {k : κ}
    (h : containsKeyA d k = false) : ∀ p ∈ d, p.1 ≠ k := by
  induction d with
  | nil => intro p hp; cases hp
  | cons q t ih =>
    intro p hp
    rcases List.mem_cons.1 hp with rfl | hp'
    · intro hk
      rw [containsKeyA, if_pos hk] at h
      cases h
    · by_cases hq : q.1 = k
      · rw [containsKeyA, if_pos hq] at h; cases h
      · rw [containsKeyA, if_neg hq] at h
        exact ih h p hp'

theorem mapK_eq_self_of_PallK {d : List (κ × α)} {k : κ} {v : α}
    (h : PallK d k v) : mapK d k v = d := by
  induction d with
  | nil => rfl
  | cons p t ih =>
    have htail : mapK t k v = t :=
      ih (fun q hq => h q (List.mem_cons_of_mem _ hq))
    by_cases hp : p.1 = k
    · have hv : p.2 = v := h p (List.mem_cons_self _ _) hp
      obtain ⟨p1, p2⟩ := p
      simp only at hp hv
      subst hp; subst hv
      simp [mapK] at htail ⊢
      exact htail
    · simp [mapK, hp] at htail ⊢
      exact htail

theorem PallK_mapK_self (d : List (κ × α)) (k : κ) (v : α) :
    PallK (mapK d k v) k v := by
  intro p hp hk
  rcases List.mem_map.1 hp with ⟨q, _, rfl⟩
  by_cases hq : q.1 = k
  · simp [hq]
  · simp only [if_neg hq] at hk ⊢
    exact absurd hk hq

theorem PallK_upsertA_self (d : List (κ × α)) (k : κ) (v : α) :
    PallK (upsertA d k v) k v := by
  unfold upsertA
  split
  · exact PallK_mapK_self d k v
  · next hc =>
    intro p hp hk
    rcases List.mem_append.1 hp with hd | hs
    · exact absurd hk (not_key_of_containsKeyA_eq_false (Bool.eq_false_iff.2 hc) p hd)
    · rcases List.mem_singleton.1 hs with rfl
      rfl

theorem PallK_upsertA_ne {d : List (κ × α)} {k k' : κ} {v v' : α}
    (hne : k' ≠ k) (h : PallK d k v) : PallK (upsertA d k' v') k v := by
  unfold upsertA
  split
  · intro p hp hk
    rcases List.mem_map.1 hp with ⟨q, hq, rfl⟩
    by_cases hq1 : q.1 = k'
    · simp only [if_pos hq1] at hk
      exact absurd hk hne
    · simp only [if_neg hq1] at hk ⊢
      exact h q hq hk
  · intro p hp hk
    rcases List.mem_append.1 hp with hd | hs
    · exact h p hd hk
    · rcases List.mem_singleton.1 hs with rfl
      exact absurd hk hne

theorem PallK_upsertAllA {X : List (κ × α)} {k : κ} {v : α}
    (h : PallK X k v) {t : List (κ × α)} (ht : containsKeyA t k = false) :
    PallK (upsertAllA X t) k v := by
  induction t generalizing X with
  | nil => exact h
  | cons p t ih =>
    have hp : p.1 ≠ k := by
      intro hk
      rw [containsKeyA, if_pos hk] at ht; cases ht
    have ht' : containsKeyA t k = false := by
      rw [containsKeyA, if_neg hp] at ht; exact ht
    exact ih (PallK_upsertA_ne hp h) ht'

theorem mapK_mapK (d : List (κ × α)) (k : κ) (v v' : α) :
    mapK (mapK d k v) k v' = mapK d k v' := by
  induction d with
  | nil => rfl
  | cons p t ih =>
    by_cases hp : p.1 = k <;> simp [mapK, hp] at ih ⊢ <;> exact ih

theorem mapK_swap {k k' : κ} (hne : k' ≠ k) (d : List (κ × α)) (v v' : α) :
    mapK (mapK d k v) k' v' = mapK (mapK d k' v') k v := by
  induction d with
  | nil => rfl
  | cons p t ih =>
    by_cases hp : p.1 = k
    · have hp' : p.1 ≠ k' := by rw [hp]; exact fun h => hne h.symm
      simp [mapK, hp, hp', Ne.symm hne, hne] at ih ⊢
      exact ih
    · by_cases hp' : p.1 = k'
      · simp [mapK, hp, hp', hne, Ne.symm hne] at ih ⊢
        exact ih
      · simp [mapK, hp, hp'] at ih ⊢
        exact ih

theorem upsertA_mapK_comm {k k' : κ} (hne : k' ≠ k) (d : List (κ × α)) (v v' : α) :
    upsertA (mapK d k v) k' v' = mapK (upsertA d k' v') k v := by
  unfold upsertA
  rw [containsKeyA_mapK]
  by_cases hc : containsKeyA d k' = true
  · rw [if_pos hc, if_pos hc, mapK_swap hne]
  · rw [if_neg hc, if_neg hc]
    show mapK d k v ++ [(k', v')] = mapK (d ++ [(k', v')]) k v
    rw [show mapK (d ++ [(k', v')]) k v = mapK d k v ++ mapK [(k', v')] k v from
      List.map_append _ _ _]
    simp [mapK, hne]

theorem upsertA_mapK_absorb {d : List (κ × α)} {k : κ} (hc : containsKeyA d k = true)
    (v v' : α) : upsertA (mapK d k v) k v' = mapK d k v' := by
  unfold upsertA
  rw [containsKeyA_mapK, if_pos hc, mapK_mapK]

theorem upsertA_of_contains {d : List (κ × α)} {k : κ} (hc : containsKeyA d k = true)
    (v : α) : upsertA d k v = mapK d k v := by
  unfold upsertA; rw [if_pos hc]

theorem containsKeyA_upsertAllA_mono {X : List (κ × α)} {k : κ}
    (hc : containsKeyA X k = true) (t : List (κ × α)) :
    containsKeyA (upsertAllA X t) k = true := by
  induction t generalizing X with
  | nil => exact hc
  | cons p t ih =>
    exact ih (by rw [containsKeyA_upsertA]; simp [hc])

theorem upsertAllA_mapK {X : List (κ × α)} {k : κ} (hc : containsKeyA X k = true)
    (t : List (κ × α)) (v : α) :
    upsertAllA (mapK X k v) t =
      if containsKeyA t k then upsertAllA X t else mapK (upsertAllA X t) k v := by
  induction t generalizing X v with
  | nil => simp [upsertAllA, containsKeyA]
  | cons p t ih =>
    by_cases hp : p.1 = k
    · have hck : containsKeyA (p :: t) k = true := by rw [containsKeyA, if_pos hp]
      rw [if_pos hck]
      subst hp
      show upsertAllA (upsertA (mapK X p.1 v) p.1 p.2) t =
        upsertAllA (upsertA X p.1 p.2) t
      rw [upsertA_mapK_absorb hc, upsertA_of_contains hc]
    · have hck : containsKeyA (p :: t) k = containsKeyA t k := by
        rw [containsKeyA, if_neg hp]
      have hc' : containsKeyA (upsertA X p.1 p.2) k = true := by
        rw [containsKeyA_upsertA]; simp [hc]
      show upsertAllA (upsertA (mapK X k v) p.1 p.2) t =
        if containsKeyA (p :: t) k then upsertAllA X (p :: t)
        else mapK (upsertAllA X (p :: t)) k v
      rw [upsertA_mapK_comm hp, ih hc', hck]
      rfl

theorem upsertAllA_idem (d s : List (κ × α)) :
    upsertAllA (upsertAllA d s) s = upsertAllA d s := by
  induction s generalizing d with
  | nil => rfl
  | cons p s ih =>
    have hcY : containsKeyA (upsertAllA (upsertA d p.1 p.2) s) p.1 = true :=
      containsKeyA_upsertAllA_mono (containsKeyA_upsertA_self d p.1 p.2) s
    show upsertAllA
        (upsertA (upsertAllA (upsertA d p.1 p.2) s) p.1 p.2) s =
      upsertAllA (upsertA d p.1 p.2) s
    rw [upsertA_of_contains hcY, upsertAllA_mapK hcY]
    by_cases hs : containsKeyA s p.1 = true
    · rw [if_pos hs]
      exact ih _
    · rw [if_neg (by simpa using hs), ih _]
      exact mapK_eq_self_of_PallK
        (PallK_upsertAllA (PallK_upsertA_self d p.1 p.2)
          (Bool.eq_false_iff.2 hs))

theorem upsertA_idem (d : List (κ × α)) (k : κ) (v : α) :
    upsertA (upsertA d k v) k v = upsertA d k v := by
  rw [upsertA_of_contains (containsKeyA_upsertA_self d k v)]
  exact mapK_eq_self_of_PallK (PallK_upsertA_self d k v)

theorem lookupA_append (d e : List (κ × α)) (k : κ) :
    lookupA (d ++ e) k =
      match lookupA d k with
      | some v => some v
      | none => lookupA e k := by
  induction d with
  | nil => simp [lookupA]
  | cons p t ih =>
    by_cases hp : p.1 = k <;> simp [lookupA, hp, ih]

theorem lookupA_eq_none_of_contains_false {d : List (κ × α)} {k : κ}
    (h : containsKeyA d k = false) : lookupA d k = none := by
  induction d with
  | nil => rfl
  | cons p t ih =>
    by_cases hp : p.1 = k
    · rw [containsKeyA, if_pos hp] at h; cases h
    · rw [containsKeyA, if_neg hp] at h
      rw [lookupA, if_neg hp]
      exact ih h

theorem lookupA_mapK_self (d : List (κ × α)) (k : κ) (v : α) :
    lookupA (mapK d k v) k = if containsKeyA d k then some v else none := by
  induction d with
  | nil => rfl
  | cons p t ih =>
    by_cases hp : p.1 = k
    · simp [mapK, lookupA, containsKeyA, hp]
    · simp [mapK, lookupA, containsKeyA, hp] at ih ⊢
      exact ih

theorem lookupA_upsertA_self (d : List (κ × α)) (k : κ) (v : α) :
    lookupA (upsertA d k v) k = some v := by
  unfold upsertA
  by_cases hc : containsKeyA d k = true
  · rw [if_pos hc, lookupA_mapK_self, if_pos hc]
  · rw [if_neg hc, lookupA_append,
      lookupA_eq_none_of_contains_false (Bool.eq_false_iff.2 hc)]
    simp [lookupA]

theorem lookupA_mapK_ne {k k' : κ} (hne : k' ≠ k) (d : List (κ × α)) (v : α) :
    lookupA (mapK d k v) k' = lookupA d k' := by
  induction d with
  | nil => rfl
  | cons p t ih =>
    by_cases hp : p.1 = k
    · have hnk : p.1 ≠ k' := by rw [hp]; exact fun h => hne h.symm
      simp [mapK, lookupA, hp, hnk, Ne.symm hne] at ih ⊢
      exact ih
    · by_cases hp' : p.1 = k'
      · simp [mapK, lookupA, hp, hp', hne]
      · simp [mapK, lookupA, hp, hp'] at ih ⊢
        exact ih

theorem lookupA_upsertA_ne {k k' : κ} (hne : k' ≠ k) (d : List (κ × α)) (v : α) :
    lookupA (upsertA d k v) k' = lookupA d k' := by
  unfold upsertA
  by_cases hc : containsKeyA d k = true
  · rw [if_pos hc, lookupA_mapK_ne hne]
  · rw [if_neg hc, lookupA_append]
    cases h : lookupA d k' with
    | some v' => rfl
    | none => simp [lookupA, Ne.symm hne]

theorem lastValA_cons (p : κ × α) (t : List (κ × α)) (k : κ) :
    lastValA (p :: t) k =
      match lastValA t k with
      | some v => some v
      | none => if p.1 = k then some p.2 else none := by
  rw [lastValA, List.reverse_cons, lookupA_append]
  cases h : lookupA t.reverse k <;> simp [lastValA, lookupA, h]

theorem lookupA_upsertAllA (d s : List (κ × α)) (k : κ) :
    lookupA (upsertAllA d s) k =
      match lastValA s k with
      | some v => some v
      | none => lookupA d k := by
  induction s generalizing d with
  | nil => simp [upsertAllA, lastValA, lookupA]
  | cons p t ih =>
    show lookupA (upsertAllA (upsertA d p.1 p.2) t) k = _
    rw [ih, lastValA_cons]
    cases h : lastValA t k with
    | some v => rfl
    | none =>
      by_cases hp : p.1 = k
      · subst hp; simp [lookupA_upsertA_self]
      · have hu := lookupA_upsertA_ne (fun hh => hp hh.symm) d p.2
        simp [hp, hu]

end AssocListLemmas

section UpdateFirstLemmas

variable {α : Type}

theorem updateFirst_find?_self (l : List α) (pred : α → Bool) (f : α → α)
    (hf : ∀ a, pred (f a) = pred a) :
    (updateFirst l pred f).find? pred = (l.find? pred).map f := by
  induction l with
  | nil => rfl
  | cons x t ih =>
    by_cases hx : pred x = true
    · rw [updateFirst, if_pos hx, List.find?_cons_of_pos _ (by rw [hf]; exact hx),
        List.find?_cons_of_pos _ hx]
      rfl
    · rw [updateFirst, if_neg hx, List.find?_cons_of_neg _ hx,
        List.find?_cons_of_neg _ (by simpa using hx), ih]

theorem updateFirst_find?_other (l : List α) (pred q : α → Bool) (f : α → α)
    (hq : ∀ a, q (f a) = q a) (hdisj : ∀ a, q a = true → pred a = false) :
    (updateFirst l pred f).find? q = l.find? q := by
  induction l with
  | nil => rfl
  | cons x t ih =>
    by_cases hx : pred x = true
    · rw [updateFirst, if_pos hx]
      by_cases hqx : q x = true
      · rw [hdisj x hqx] at hx; cases hx
      · rw [List.find?_cons_of_neg _ (by rw [hq]; simpa using hqx),
          List.find?_cons_of_neg _ (by simpa using hqx)]
    · rw [updateFirst, if_neg hx]
      by_cases hqx : q x = true
      · rw [List.find?_cons_of_pos _ hqx, List.find?_cons_of_pos _ hqx]
      · rw [List.find?_cons_of_neg _ (by simpa using hqx),
          List.find?_cons_of_neg _ (by simpa using hqx), ih]

theorem updateFirst_find?_map (l : List α) (pred q : α → Bool) (f : α → α)
    (hq : ∀ a, q (f a) = q a) :
    ∀ x, l.find? q = some x →
      ∃ y, (updateFirst l pred f).find? q = some y ∧ (y = x ∨ y = f x) := by
  induction l with
  | nil => intro x hx; cases hx
  | cons z t ih =>
    intro x hx
    by_cases hz : pred z = true
    · rw [updateFirst, if_pos hz]
      by_cases hqz : q z = true
      · rw [List.find?_cons_of_pos _ hqz] at hx
        injection hx with hzy
        subst hzy
        exact ⟨f z, by rw [List.find?_cons_of_pos _ (by rw [hq]; exact hqz)],
          Or.inr rfl⟩
      · rw [List.find?_cons_of_neg _ (by simpa using hqz)] at hx
        exact ⟨x, by
          rw [List.find?_cons_of_neg _ (by rw [hq]; simpa using hqz)]
          exact hx, Or.inl rfl⟩
    · rw [updateFirst, if_neg hz]
      by_cases hqz : q z = true
      · rw [List.find?_cons_of_pos _ hqz] at hx
        injection hx with hzy
        subst hzy
        exact ⟨z, by rw [List.find?_cons_of_pos _ hqz], Or.inl rfl⟩
      · rw [List.find?_cons_of_neg _ (by simpa using hqz)] at hx
        obtain ⟨y, hy, hyx⟩ := ih x hx
        exact ⟨y, by rw [List.find?_cons_of_neg _ (by simpa using hqz)]; exact hy, hyx⟩

theorem updateFirst_forall {P : α → Prop} (l : List α) (pred : α → Bool) (f : α → α)
    (hl : ∀ a ∈ l, P a) (hf : ∀ a, P a → P (f a)) :
    ∀ b ∈ updateFirst l pred f, P b := by
  induction l with
  | nil => intro b hb; cases hb
  | cons x t ih =>
    intro b hb
    by_cases hx : pred x = true
    · rw [updateFirst, if_pos hx] at hb
      rcases List.mem_cons.1 hb with rfl | hb'
      · exact hf x (hl x (List.mem_cons_self _ _))
      · exact hl b (List.mem_cons_of_mem _ hb')
    · rw [updateFirst, if_neg hx] at hb
      rcases List.mem_cons.1 hb with rfl | hb'
      · exact hl b (List.mem_cons_self _ _)
      · exact ih (fun a ha => hl a (List.mem_cons_of_mem _ ha)) b hb'

theorem updateFirst_mem_of_found {l : List α} {pred : α → Bool} {x : α}
    (h : l.find? pred = some x) (f : α → α) : f x ∈ updateFirst l pred f := by
  induction l with
  | nil => cases h
  | cons z t ih =>
    by_cases hz : pred z = true
    · rw [List.find?_cons_of_pos _ hz] at h
      cases h
      rw [updateFirst, if_pos hz]
      exact List.mem_cons_self _ _
    · rw [List.find?_cons_of_neg _ (by simpa using hz)] at h
      rw [updateFirst, if_neg hz]
      exact List.mem_cons_of_mem _ (ih h)

theorem updateFirst_map_eq {β : Type} (l : List α) (pred : α → Bool) (f : α → α)
    (g : α → β) (hg : ∀ a, g (f a) = g a) :
    (updateFirst l pred f).map g = l.map g := by
  induction l with
  | nil => rfl
  | cons x t ih =>
    by_cases hx : pred x = true
    · rw [updateFirst, if_pos hx, List.map_cons, List.map_cons, hg]
    · rw [updateFirst, if_neg hx, List.map_cons, List.map_cons, ih]

end UpdateFirstLemmas

section PutCardsLemmas

theorem putCardsUpd_entityId (cardId : Option Nat) (cardName : Option String)
    (state : Option CardState) (c : Card) :
    (putCardsUpd cardId cardName state c).entityId = c.entityId := by
  cases cardId <;> cases cardName <;> cases state <;>
    simp only [putCardsUpd] <;> split_ifs <;> rfl

theorem putCardsUpd_state_some (cardId : Option Nat) (cardName : Option String)
    (st : CardState) (c : Card) :
    (putCardsUpd cardId cardName (some st) c).state = st := by
  cases cardId <;> cases cardName <;> simp only [putCardsUpd]

theorem putCards_nodup (l : List Card) (eid : Nat) (cid : Option Nat)
    (cn : Option String) (sp : Option Bool) (st : Option CardState)
    (h : (l.map (fun c => c.entityId)).Nodup) :
    ((putCards l eid cid cn sp st).map (fun c => c.entityId)).Nodup := by
  unfold putCards
  cases hf : l.find? (fun c => c.entityId == eid) with
  | some c0 =>
    rw [updateFirst_map_eq _ _ _ _ (fun a => putCardsUpd_entityId cid cn st a)]
    exact h
  | none =>
    cases st with
    | none => exact h
    | some st' =>
      cases sp with
      | none => exact h
      | some sp' =>
        rw [List.map_append, List.nodup_append]
        refine ⟨h, List.nodup_singleton _, ?_⟩
        intro a ha hb
        simp only [List.map_cons, List.map_nil, List.mem_singleton] at hb
        subst hb
        rcases List.mem_map.1 ha with ⟨c, hc, hce⟩
        have := List.find?_eq_none.1 hf c hc
        simp only [beq_iff_eq] at this
        exact this hce

theorem putCards_update_mem {l : List Card} {eid : Nat} {c0 : Card}
    (hf : l.find? (fun c => c.entityId == eid) = some c0) (cid : Option Nat)
    (cn : Option String) (sp : Option Bool) (st : CardState) :
    ∃ c2 ∈ putCards l eid cid cn sp (some st),
      c2.entityId = eid ∧ c2.state = st := by
  refine ⟨putCardsUpd cid cn (some st) c0, ?_, ?_, ?_⟩
  · unfold putCards
    rw [hf]
    exact updateFirst_mem_of_found hf _
  · rw [putCardsUpd_entityId]
    have := List.find?_some hf
    simpa using this
  · exact putCardsUpd_state_some _ _ _ _

theorem putCards_mem_state (l : List Card) (eid : Nat) (cid : Option Nat)
    (cn : Option String) (sp : Bool) (st : CardState) :
    ∃ c2 ∈ putCards l eid cid cn (some sp) (some st),
      c2.entityId = eid ∧ c2.state = st := by
  cases hf : l.find? (fun c => c.entityId == eid) with
  | some c0 => exact putCards_update_mem hf cid cn (some sp) st
  | none =>
    refine ⟨{ entityId := eid, cardId := cid, cardName := cn, state := st,
              isSpawnedCard := sp, tags := [] }, ?_, rfl, rfl⟩
    unfold putCards
    rw [hf]
    exact List.mem_append_right _ (List.mem_singleton.2 rfl)

theorem putCards_retain {l : List Card} {eid : Nat} {c : Card} (hc : c ∈ l)
    (hcid : c.entityId = eid) (cid : Option Nat) (cn : Option String)
    (sp : Option Bool) (st : CardState) :
    ∃ c2 ∈ putCards l eid cid cn sp (some st),
      c2.entityId = eid ∧ c2.state = st := by
  cases hf : l.find? (fun c => c.entityId == eid) with
  | some c0 => exact putCards_update_mem hf cid cn sp st
  | none =>
    have := List.find?_eq_none.1 hf c hc
    simp only [beq_iff_eq] at this
    exact absurd hcid this

end PutCardsLemmas

section ResolveEntityLemmas

theorem mergeCardEntity_absorb (ex : Option CardEntity) (e : CardEntityPatch) :
    mergeCardEntity (some (mergeCardEntity ex e)) e = mergeCardEntity ex e := by
  cases e with
  | mk entityId cardId cardName player tags =>
    cases cardId <;> cases cardName <;> cases player <;>
      simp [mergeCardEntity, upsertAllA_idem]

theorem refreshCardTags_entityId (ent : List (Nat × CardEntity)) (eid : Nat)
    (c : Card) : (refreshCardTags ent eid c).entityId = c.entityId := by
  unfold refreshCardTags
  split
  · split <;> rfl
  · rfl

theorem refreshCardTags_idem (ent : List (Nat × CardEntity)) (eid : Nat)
    (c : Card) :
    refreshCardTags ent eid (refreshCardTags ent eid c) = refreshCardTags ent eid c := by
  by_cases h : (c.entityId == eid) = true
  · cases hi : identifySpecialTags (lookupA ent c.entityId) with
    | some ts =>
      have h1 : refreshCardTags ent eid c = { c with tags := ts } := by
        unfold refreshCardTags
        rw [if_pos h, hi]
      rw [h1]
      unfold refreshCardTags
      rw [if_pos (show (({ c with tags := ts } : Card).entityId == eid) = true from h)]
      show (match identifySpecialTags (lookupA ent c.entityId) with
        | some ts2 => { c with tags := ts2 }
        | none => { c with tags := ts }) = { c with tags := ts }
      rw [hi]
    | none =>
      have h1 : refreshCardTags ent eid c = c := by
        unfold refreshCardTags
        rw [if_pos h, hi]
      rw [h1, h1]
  · have h1 : refreshCardTags ent eid c = c := by
      unfold refreshCardTags
      rw [if_neg h]
    rw [h1, h1]

theorem patchProps_idem {nm : String} (hnm : isEmptyS nm = false) (eid : Nat)
    (cid : Option Nat) (pr : EntityProps) :
    patchProps eid nm cid (patchProps eid nm cid pr) = patchProps eid nm cid pr := by
  by_cases h : (isEmptyS pr.cardName && pr.entityId == eid) = true
  · have h1 : patchProps eid nm cid pr = resolvedProps eid nm cid pr := by
      unfold patchProps
      rw [if_pos h]
    rw [h1]
    unfold patchProps
    rw [if_neg (by simp [resolvedProps, hnm])]
  · have h1 : patchProps eid nm cid pr = pr := by
      unfold patchProps
      rw [if_neg h]
    rw [h1, h1]

theorem patchProps_cardName_not_matching {nm : String} (hnm : isEmptyS nm = false)
    (eid : Nat) (cid : Option Nat) (pr : EntityProps) :
    (isEmptyS (patchProps eid nm cid pr).cardName &&
      (patchProps eid nm cid pr).entityId == eid) = false := by
  by_cases h : (isEmptyS pr.cardName && pr.entityId == eid) = true
  · unfold patchProps
    rw [if_pos h]
    simp [resolvedProps, hnm]
  · unfold patchProps
    rw [if_neg h]
    simpa using h

theorem patchEntry_idem {nm : String} (hnm : isEmptyS nm = false) (eid : Nat)
    (cid : Option Nat) (entry : MatchLogEntry) :
    patchEntry eid nm cid (patchEntry eid nm cid entry) = patchEntry eid nm cid entry := by
  unfold patchEntry
  simp only [List.map_map]
  congr 1
  · exact patchProps_idem hnm eid cid entry.source
  · exact List.map_congr_left (fun pr _ => patchProps_idem hnm eid cid pr)

theorem resolveEntity_eq (gs : GameState) (e : CardEntityPatch) :
    gs.resolveEntity e =
      { gs with
        entities := upsertA gs.entities e.entityId
          (mergeCardEntity (lookupA gs.entities e.entityId) e),
        players := gs.players.map (fun p =>
          { p with cards := p.cards.map (refreshCardTags
              (upsertA gs.entities e.entityId
                (mergeCardEntity (lookupA gs.entities e.entityId) e)) e.entityId) }),
        matchLog :=
          if isEmptyS (mergeCardEntity (lookupA gs.entities e.entityId) e).cardName
              || !(gs.missingEntityIds.contains e.entityId) then gs.matchLog
          else gs.matchLog.map (patchEntry e.entityId
            (mergeCardEntity (lookupA gs.entities e.entityId) e).cardName
            (mergeCardEntity (lookupA gs.entities e.entityId) e).cardId) } := by
  unfold GameState.resolveEntity
  split
  · next h => rw [if_pos h]
  · next h => rw [if_neg h]

theorem resolveEntity_idem (gs : GameState) (e : CardEntityPatch) :
    (gs.resolveEntity e).resolveEntity e = gs.resolveEntity e := by
  set m := mergeCardEntity (lookupA gs.entities e.entityId) e with hm
  have hE : (gs.resolveEntity e).entities = upsertA gs.entities e.entityId m := by
    rw [resolveEntity_eq]
  have hMiss : (gs.resolveEntity e).missingEntityIds = gs.missingEntityIds := by
    rw [resolveEntity_eq]
  have hlook : lookupA (gs.resolveEntity e).entities e.entityId = some m := by
    rw [hE]
    exact lookupA_upsertA_self _ _ _
  have hm2 : mergeCardEntity (lookupA (gs.resolveEntity e).entities e.entityId) e = m := by
    rw [hlook, hm]
    exact mergeCardEntity_absorb _ _
  rw [resolveEntity_eq (gs.resolveEntity e) e, hm2]
  rw [hE, hMiss, upsertA_idem]
  have hPlayers : (gs.resolveEntity e).players.map (fun p =>
      { p with cards := p.cards.map (refreshCardTags
          (upsertA gs.entities e.entityId m) e.entityId) }) =
      (gs.resolveEntity e).players := by
    have hP : (gs.resolveEntity e).players = gs.players.map (fun p =>
        { p with cards := p.cards.map (refreshCardTags
            (upsertA gs.entities e.entityId m) e.entityId) }) := by
      rw [resolveEntity_eq]
    rw [hP, List.map_map]
    refine List.map_congr_left (fun p _ => ?_)
    show ({ p with cards := (p.cards.map (refreshCardTags
        (upsertA gs.entities e.entityId m) e.entityId)).map (refreshCardTags
        (upsertA gs.entities e.entityId m) e.entityId) } : Player) = _
    rw [List.map_map]
    congr 1
    exact List.map_congr_left (fun c _ => refreshCardTags_idem _ _ c)
  rw [hPlayers]
  by_cases hg : (isEmptyS m.cardName || !(gs.missingEntityIds.contains e.entityId)) = true
  · rw [if_pos hg, ← hE, ← hMiss]
  · have hnm : isEmptyS m.cardName = false := by
      rcases Bool.or_eq_false_iff.1 (Bool.eq_false_iff.2 hg) with ⟨h1, _⟩
      exact h1
    have hML : (gs.resolveEntity e).matchLog =
        gs.matchLog.map (patchEntry e.entityId m.cardName m.cardId) := by
      rw [resolveEntity_eq]
      simp only [← hm]
      rw [if_neg hg]
    rw [if_neg hg, hML, List.map_map]
    have hstable : gs.matchLog.map ((patchEntry e.entityId m.cardName m.cardId) ∘
        (patchEntry e.entityId m.cardName m.cardId)) =
        gs.matchLog.map (patchEntry e.entityId m.cardName m.cardId) :=
      List.map_congr_left (fun entry _ => patchEntry_idem hnm _ _ entry)
    rw [hstable, ← hML, ← hE, ← hMiss]

end ResolveEntityLemmas

section ClaimC10

/-- C10: a mulligan-result fact applied while the mulligan is active to a
registered player sets `cardsReplacedInMulligan` to
`DECK_CARD_COUNT − cardCount − cardsLeft`, in exact integer arithmetic. -/
theorem mulligan_result_c10 (gs : GameState) (name : String) (cardsLeft : Int)
    (p : Player) (hact : gs.mulliganActive = true)
    (hp : gs.getPlayerByName name = some p) :
    (mulliganResultHandler name cardsLeft gs).2 = true ∧
    ∃ p2, (mulliganResultHandler name cardsLeft gs).1.getPlayerByName name = some p2 ∧
      p2.cardsReplacedInMulligan = DECK_CARD_COUNT - p.cardCount - cardsLeft := by
  have hres : mulliganResultHandler name cardsLeft gs =
      ({ gs with players := (updateFirst gs.players (fun q => q.name == name)
        (fun q => { q with cardsReplacedInMulligan :=
          DECK_CARD_COUNT - q.cardCount - cardsLeft })) }, true) := by
    unfold mulliganResultHandler
    rw [hact, hp]
    rfl
  rw [hres]
  refine ⟨rfl, ?_⟩
  have hfind := updateFirst_find?_self gs.players (fun q => q.name == name)
    (fun q => { q with cardsReplacedInMulligan :=
      DECK_CARD_COUNT - q.cardCount - cardsLeft }) (fun a => rfl)
  refine ⟨{ p with cardsReplacedInMulligan :=
    DECK_CARD_COUNT - p.cardCount - cardsLeft }, ?_, rfl⟩
  show (updateFirst gs.players _ _).find? _ = _
  rw [hfind]
  unfold GameState.getPlayerByName at hp
  rw [hp]
  rfl

def gsC10w : GameState :=
  { initGameState with mulliganActive := true, players := [newPlayer 1 "Alice"] }

/-- Witness for C10, the spec's seed test: deck size 30, no cards drawn,
27 entities kept, so 3 cards replaced. -/
theorem mulligan_result_c10_witness :
    gsC10w.mulliganActive = true ∧
    gsC10w.getPlayerByName "Alice" = some (newPlayer 1 "Alice") ∧
    ∃ p2, (mulliganResultHandler "Alice" 27 gsC10w).1.getPlayerByName "Alice" = some p2 ∧
      p2.cardsReplacedInMulligan = 3 := by
  obtain ⟨-, p2, h1, h2⟩ :=
    mulligan_result_c10 gsC10w "Alice" 27 (newPlayer 1 "Alice") rfl (by decide)
  exact ⟨rfl, by decide, p2, h1, by rw [h2]; decide⟩

end ClaimC10

section ClaimC3

theorem parseLineStep_updated_false
    (parsers : List (String → GameState → GameState × Bool)) (flag : Bool)
    (acc : ParseAcc) (line : String) (h : acc.updated = false) :
    (parseLineStep parsers flag acc line).updated = false ∧
    (parseLineStep parsers flag acc line).events = acc.events := by
  unfold parseLineStep
  rw [h]
  exact ⟨rfl, rfl⟩

theorem parseLines_foldl_no_events
    (parsers : List (String → GameState → GameState × Bool)) (flag : Bool)
    (lines : List String) :
    ∀ acc : ParseAcc, acc.updated = false →
      (lines.foldl (parseLineStep parsers flag) acc).updated = false ∧
      (lines.foldl (parseLineStep parsers flag) acc).events = acc.events := by
  induction lines with
  | nil => exact fun acc h => ⟨h, rfl⟩
  | cons line rest ih =>
    intro acc h
    obtain ⟨h1, h2⟩ := parseLineStep_updated_false parsers flag acc line h
    obtain ⟨h3, h4⟩ := ih (parseLineStep parsers flag acc line) h1
    refine ⟨?_, ?_⟩
    · rw [List.foldl_cons]
      exact h3
    · rw [List.foldl_cons, h4, h2]

/-- C3 is violated by the code: `LogWatcher.parseLines` discards every
line parser's returned boolean (`lineParser(line, this.gameState);`), so
the `updated` flag is never set and no `"gamestate-changed"` event is
ever emitted — for any parser list, any option flag, any starting state
and any batch, the emission count is zero, even when a parser mutated
state and returned `true`. -/
theorem parse_lines_c3_never_emits
    (parsers : List (String → GameState → GameState × Bool)) (flag : Bool)
    (gs0 : GameState) (lines : List String) :
    (parseLines parsers flag gs0 lines).2 = 0 := by
  unfold parseLines
  obtain ⟨h1, h2⟩ := parseLines_foldl_no_events parsers flag lines
    { gs := gs0, updated := false, lastTurnTime := gs0.turnStartTime, events := 0 }
    rfl
  simp [h1, h2]

end ClaimC3

section ClaimC7

/-- C7 is violated by the code: when the file shrank (`startByte 10`,
new size `endByte 5`), `readLogFile` allocates `endByte` bytes but still
reads at position `startByte`, which is past end of file, so the
zero-filled buffer comes back as one line of NUL bytes instead of the
first `endByte` bytes of the file; the normal append case works. -/
theorem read_log_file_c7_truncation :
    readLogFile "hello" 10 5 = [String.mk (List.replicate 5 (Char.ofNat 0))] ∧
    readLogFile "hello" 10 5 ≠ ["hello"] ∧
    readLogFile "hello" 0 5 = ["hello"] ∧
    readLogFile "hello world" 5 11 = [" world"] :=
  ⟨by decide, by decide, by decide, by decide⟩

end ClaimC7

section ClaimC6

theorem jsParseInt_ws {s : String} (h : ∀ c ∈ s.data, isJsSpace c = true) :
    jsParseInt s = none := by
  unfold jsParseInt
  have hd : s.data.dropWhile isJsSpace = [] := by
    rw [List.dropWhile_eq_nil_iff]
    exact fun c hc => h c hc
  rw [hd]
  rfl

/-- C6 is violated by the code: while a block is open, the factory
compares `parseInt` of the `(?<indent>\s+)` capture — a whitespace-only
string, hence `NaN` — with the stored indentation width, which can never
be equal, so the embedded block-line handler is never invoked for any
line; in particular a same-label line at exactly the stored width is not
forwarded. -/
theorem block_parser_c6_never_forwards {σ γ : Type}
    (initBlockState : γ → GameState → Option σ)
    (blockLineParser : GameState → σ → GameState × σ) (gs : GameState)
    (st : BlockPState σ) (line : BlockLine γ)
    (hws : ∀ ws, line.labelMatch = some ws → ∀ c ∈ ws.data, isJsSpace c = true) :
    (blockStep initBlockState blockLineParser gs st line).invoked = false ∧
    (blockStep initBlockState blockLineParser gs st line).returned = false := by
  cases hsm : line.startMatch with
  | some p => simp [blockStep, hsm]
  | none =>
    cases hbs : st.blockState with
    | none => simp [blockStep, hsm, hbs]
    | some s =>
      cases hlm : line.labelMatch with
      | none => simp [blockStep, hsm, hbs, hlm]
      | some ws =>
        simp [blockStep, hsm, hbs, hlm, jsParseInt_ws (hws ws hlm)]

def blockInitW : Unit → GameState → Option Nat := fun _ _ => some 7

def blockHandlerW : GameState → Nat → GameState × Nat := fun gs s => (gs, s + 1)

def blockStartLineW : BlockLine Unit :=
  { startMatch := some ("    ", ()), labelMatch := some "    " }

def blockNextLineW : BlockLine Unit :=
  { startMatch := none, labelMatch := some "    " }

def blockOpenStateW : BlockPState Nat :=
  (blockStep blockInitW blockHandlerW initGameState
    { blockState := none, indent := 0 } blockStartLineW).state

/-- Witness for C6: a start line opens a block at indentation width 4
(`blockState` is populated, `indent = 4`), yet the embedded handler is
still not invoked for a following same-label line whose indent capture is
four spaces. -/
theorem block_parser_c6_witness :
    blockOpenStateW.blockState = some 7 ∧ blockOpenStateW.indent = 4 ∧
    (blockStep blockInitW blockHandlerW initGameState blockOpenStateW
      blockNextLineW).invoked = false :=
  ⟨rfl, rfl,
    (block_parser_c6_never_forwards blockInitW blockHandlerW initGameState
      blockOpenStateW blockNextLineW (by decide)).1⟩

end ClaimC6

section ClaimC4

theorem gameOverStatusPlayers_find_turn (playerName status : String)
    (gs : GameState) (cp : Player)
    (hcp : gs.players.find? (fun p => p.turn) = some cp) :
    ∃ cp2, (gameOverStatusPlayers playerName status gs).find? (fun p => p.turn) =
        some cp2 ∧ cp2.turnHistory = cp.turnHistory ∧ cp2.turn = cp.turn := by
  unfold gameOverStatusPlayers
  cases hb : gs.getPlayerByName playerName with
  | none => exact ⟨cp, hcp, rfl, rfl⟩
  | some q =>
    by_cases hst : (status == "WON" || status == "LOST" || status == "TIED") = true
    · rw [if_pos hst]
      obtain ⟨y, hy, hyx⟩ := updateFirst_find?_map gs.players
        (fun p => p.name == playerName) (fun p => p.turn)
        (fun p => { p with status := status }) (fun a => rfl) cp hcp
      rcases hyx with rfl | rfl
      · exact ⟨y, hy, rfl, rfl⟩
      · exact ⟨_, hy, rfl, rfl⟩
    · rw [if_neg hst]
      exact ⟨cp, hcp, rfl, rfl⟩

/-- C4 amended: `gameOverCount` increments by exactly one per terminal
status line (so it passes through 2 exactly once); on the second and on
every later occurrence — the source condition is `gameOverCount >= 2` —
the handler stamps `matchDuration = now − startTime` and closes the
current turn holder's last `turnHistory` entry; a line before the second
leaves `matchDuration` alone.  In particular a third terminal-status
line re-stamps `matchDuration`, contrary to the original claim. -/
theorem game_over_c4_amended (gs : GameState) (playerName status : String)
    (now : Int) :
    (gameOverHandler playerName status gs now).2 = true ∧
    (gameOverHandler playerName status gs now).1.gameOverCount = gs.gameOverCount + 1 ∧
    (2 ≤ gs.gameOverCount + 1 →
      (gameOverHandler playerName status gs now).1.matchDuration = now - gs.startTime) ∧
    (gs.gameOverCount + 1 < 2 →
      (gameOverHandler playerName status gs now).1.matchDuration = gs.matchDuration) ∧
    (∀ cp, 2 ≤ gs.gameOverCount + 1 →
      gs.players.find? (fun p => p.turn) = some cp →
      ∃ cp2, (gameOverHandler playerName status gs now).1.players.find?
          (fun p => p.turn) = some cp2 ∧
        cp2.turnHistory = closeLast cp.turnHistory now) := by
  refine ⟨?_, ?_, ?_, ?_, ?_⟩
  · by_cases h : 2 ≤ gs.gameOverCount + 1 <;> simp [gameOverHandler, h]
  · by_cases h : 2 ≤ gs.gameOverCount + 1 <;> simp [gameOverHandler, h]
  · intro h2
    simp [gameOverHandler, h2]
  · intro h2
    simp [gameOverHandler, show ¬(2 ≤ gs.gameOverCount + 1) from Nat.not_le_of_lt h2]
  · intro cp h2 hcp
    obtain ⟨y, hy, hyh, hyt⟩ :=
      gameOverStatusPlayers_find_turn playerName status gs cp hcp
    refine ⟨{ y with turnHistory := closeLast y.turnHistory now }, ?_, by rw [hyh]⟩
    simp only [gameOverHandler]
    rw [if_pos h2]
    show ((match (gameOverStatusPlayers playerName status gs).find?
        (fun p => p.turn) with
      | some _ => updateFirst (gameOverStatusPlayers playerName status gs)
          (fun p => p.turn)
          (fun p => { p with turnHistory := closeLast p.turnHistory now })
      | none => gameOverStatusPlayers playerName status gs) : List Player).find?
        (fun p => p.turn) = _
    rw [hy]
    show List.find? (fun p => p.turn)
        (updateFirst (gameOverStatusPlayers playerName status gs) (fun p => p.turn)
          (fun p => { p with turnHistory := closeLast p.turnHistory now })) = _
    have hufs := updateFirst_find?_self (gameOverStatusPlayers playerName status gs)
      (fun p => p.turn)
      (fun p => { p with turnHistory := closeLast p.turnHistory now }) (fun a => rfl)
    rw [hufs, hy]
    rfl

def gsC4b : GameState := (gameOverHandler "X" "WON" initGameState 10).1

def gsC4c : GameState := (gameOverHandler "X" "WON" gsC4b 20).1

def gsC4d : GameState := (gameOverHandler "X" "WON" gsC4c 30).1

/-- Counterexample to C4 as stated: after the second terminal-status
line `matchDuration` is 20, but a third line re-stamps it to 30 — the
code condition is `gameOverCount >= 2`, not an exactly-once stamp. -/
theorem game_over_c4_counterexample :
    gsC4c.gameOverCount = 2 ∧ gsC4c.matchDuration = 20 ∧
    gsC4d.gameOverCount = 3 ∧ gsC4d.matchDuration = 30 ∧
    gsC4d.matchDuration ≠ gsC4c.matchDuration := by
  refine ⟨by decide, by decide, by decide, by decide, by decide⟩

def pC4w : Player :=
  { newPlayer 1 "Ann" with turn := true, turnHistory := [{ startTime := 2 }] }

def gsC4w : GameState :=
  { initGameState with players := [pC4w], gameOverCount := 1, startTime := 1 }

/-- Witness for C4 amended: a second terminal-status line stamps
`matchDuration` and closes the turn holder's last turn entry. -/
theorem game_over_c4_amended_witness :
    (gameOverHandler "Ann" "WON" gsC4w 9).2 = true ∧
    (gameOverHandler "Ann" "WON" gsC4w 9).1.matchDuration = 9 - 1 ∧
    (∃ cp2, (gameOverHandler "Ann" "WON" gsC4w 9).1.players.find?
        (fun p => p.turn) = some cp2 ∧
      cp2.turnHistory = closeLast pC4w.turnHistory 9) :=
  ⟨(game_over_c4_amended gsC4w "Ann" "WON" 9).1,
   (game_over_c4_amended gsC4w "Ann" "WON" 9).2.2.1 (by decide),
   (game_over_c4_amended gsC4w "Ann" "WON" 9).2.2.2.2 pC4w (by decide) (by decide)⟩

end ClaimC4

section ClaimC9

/-- C9 amended: the zone-change handler aborts atomically — returning
`(gs, false)` with the state untouched — on each of its lookup misses
(unknown card id in the static table, unregistered player id, missing
opponent), and the mulligan-result and turn-change handlers likewise
abort on their misses; the game-over handler, however, is not covered:
on an unregistered player name it still mutates state (see the
counterexample). -/
theorem soft_miss_c9_amended (cardData : String → Option CardType)
    (questMap : String → Option QuestTemplate)
    (secretToClass : String → Option String) (g : ZoneChangeGroups)
    (gs : GameState) (now : Int) (name tv : String) (cardsLeft : Int) :
    (cardData g.cardId = none →
      zoneChangeHandler cardData questMap secretToClass g gs now = (gs, false)) ∧
    (gs.getPlayerById g.playerId = none →
      zoneChangeHandler cardData questMap secretToClass g gs now = (gs, false)) ∧
    (∀ player, gs.getPlayerById g.playerId = some player →
      gs.players.find? (fun p => !(p.id == player.id)) = none →
      zoneChangeHandler cardData questMap secretToClass g gs now = (gs, false)) ∧
    (gs.mulliganActive = false →
      mulliganResultHandler name cardsLeft gs = (gs, false)) ∧
    (gs.getPlayerByName name = none →
      mulliganResultHandler name cardsLeft gs = (gs, false)) ∧
    (gs.getPlayerByName name = none →
      turnChangeHandler name tv gs now = (gs, false)) := by
  refine ⟨?_, ?_, ?_, ?_, ?_, ?_⟩
  · intro h
    unfold zoneChangeHandler
    rw [h]
  · intro h
    unfold zoneChangeHandler
    cases hcd : cardData g.cardId with
    | none => rfl
    | some ct => simp only [h]
  · intro player hplayer h
    unfold zoneChangeHandler
    cases hcd : cardData g.cardId with
    | none => rfl
    | some ct => simp only [hplayer, h]
  · intro h
    unfold mulliganResultHandler
    rw [h]
    rfl
  · intro h
    unfold mulliganResultHandler
    rw [h]
    split <;> rfl
  · intro h
    unfold turnChangeHandler
    rw [h]

/-- Counterexample to C9 as stated: a game-over line naming a player that
is not registered still increments `gameOverCount` and returns `true`
instead of aborting unchanged. -/
theorem soft_miss_c9_counterexample :
    initGameState.getPlayerByName "Alice" = none ∧
    (gameOverHandler "Alice" "WON" initGameState 5).2 = true ∧
    (gameOverHandler "Alice" "WON" initGameState 5).1.gameOverCount = 1 ∧
    (gameOverHandler "Alice" "WON" initGameState 5).1 ≠ initGameState := by
  refine ⟨by decide, by decide, by decide, by decide⟩

def cdC9w : String → Option CardType := fun _ => none

def qmC9w : String → Option QuestTemplate := fun _ => none

def scC9w : String → Option String := fun _ => none

def gC9w : ZoneChangeGroups :=
  { entityName := "E", entityId := 1, cardId := "NOPE", playerId := 1,
    fromTeam := none, fromZone := none, toTeam := none, toZone := none }

/-- Witness for C9 amended: concrete aborted mutations. -/
theorem soft_miss_c9_witness :
    zoneChangeHandler cdC9w qmC9w scC9w gC9w initGameState 0 =
      (initGameState, false) ∧
    mulliganResultHandler "Nobody" 3 initGameState = (initGameState, false) ∧
    turnChangeHandler "Nobody" "1" initGameState 0 = (initGameState, false) :=
  ⟨(soft_miss_c9_amended cdC9w qmC9w scC9w gC9w initGameState 0 "Nobody" "1" 3).1
      rfl,
   (soft_miss_c9_amended cdC9w qmC9w scC9w gC9w initGameState 0 "Nobody" "1" 3).2.2.2.1
      rfl,
   (soft_miss_c9_amended cdC9w qmC9w scC9w gC9w initGameState 0 "Nobody" "1" 3).2.2.2.2.2
      (by decide)⟩

end ClaimC9

section ClaimC5

/-- The update a turn-change fact performs on the player it names:
value `1` grants the turn and opens a new history entry, any other value
revokes the turn and closes the last history entry. -/
def turnSelfUpd (turnValue : String) (now : Int) (p : Player) : Player :=
  if turnValue == "1" then
    { p with turn := true, turnHistory := p.turnHistory ++ [{ startTime := now }] }
  else
    { p with turn := false, turnHistory := closeLast p.turnHistory now }

/-- The update a turn-change fact performs on the opponent of the player
it names: the complementary turn flag, history untouched. -/
def turnOppUpd (turnValue : String) (p : Player) : Player :=
  { p with turn := !(turnValue == "1") }

/-- C5 amended: with two registered players of distinct ids and names,
a turn-change fact naming one of them makes exactly one player hold the
turn afterwards; a fact with value `1` sets the named player's turn flag,
appends a fresh `turnHistory` entry with no duration and clears the
opponent's flag, while a fact with a value other than `1` clears the
named player's flag, stamps `duration = now − startTime` on the named
player's last `turnHistory` entry and sets the opponent's flag.  A single
fact never both appends the new holder's entry and closes the previous
holder's entry, contrary to the original claim. -/
theorem turn_change_c5_amended (gs : GameState) (a b : Player)
    (playerName turnValue : String) (now : Int)
    (hp : gs.players = [a, b]) (hid : a.id ≠ b.id) (hnm : a.name ≠ b.name) :
    (playerName = a.name → turnChangeHandler playerName turnValue gs now =
      ({ gs with players :=
        [turnSelfUpd turnValue now a, turnOppUpd turnValue b] }, true)) ∧
    (playerName = b.name → turnChangeHandler playerName turnValue gs now =
      ({ gs with players :=
        [turnOppUpd turnValue a, turnSelfUpd turnValue now b] }, true)) ∧
    ((playerName = a.name ∨ playerName = b.name) →
      (turnChangeHandler playerName turnValue gs now).1.players.countP
        (fun p => p.turn) = 1) := by
  have haa : (a.name == a.name) = true := by simp
  have hbb : (b.name == b.name) = true := by simp
  have hba : (b.name == a.name) = false := by
    rw [beq_eq_false_iff_ne]
    exact Ne.symm hnm
  have hab : (a.name == b.name) = false := by
    rw [beq_eq_false_iff_ne]
    exact hnm
  have hidaa : (a.id == a.id) = true := by simp
  have hidbb : (b.id == b.id) = true := by simp
  have hidba : (b.id == a.id) = false := by
    rw [beq_eq_false_iff_ne]
    exact Ne.symm hid
  have hidab : (a.id == b.id) = false := by
    rw [beq_eq_false_iff_ne]
    exact hid
  have hcaseA : playerName = a.name → turnChangeHandler playerName turnValue gs now =
      ({ gs with players :=
        [turnSelfUpd turnValue now a, turnOppUpd turnValue b] }, true) := by
    intro hA
    subst hA
    by_cases hv : (turnValue == "1") = true
    · simp [turnChangeHandler, GameState.getPlayerByName, hp, List.find?,
        updateFirst, turnSelfUpd, turnOppUpd, haa, hba, hidaa, hidba, hv]
    · simp [turnChangeHandler, GameState.getPlayerByName, hp, List.find?,
        updateFirst, turnSelfUpd, turnOppUpd, haa, hba, hidaa, hidba, hv]
  have hcaseB : playerName = b.name → turnChangeHandler playerName turnValue gs now =
      ({ gs with players :=
        [turnOppUpd turnValue a, turnSelfUpd turnValue now b] }, true) := by
    intro hB
    subst hB
    by_cases hv : (turnValue == "1") = true
    · simp [turnChangeHandler, GameState.getPlayerByName, hp, List.find?,
        updateFirst, turnSelfUpd, turnOppUpd, hbb, hab, hidbb, hidab, hv]
    · simp [turnChangeHandler, GameState.getPlayerByName, hp, List.find?,
        updateFirst, turnSelfUpd, turnOppUpd, hbb, hab, hidbb, hidab, hv]
  refine ⟨hcaseA, hcaseB, ?_⟩
  rintro (hA | hB)
  · rw [hcaseA hA]
    by_cases hv : (turnValue == "1") = true <;>
      simp [List.countP, List.countP.go, turnSelfUpd, turnOppUpd, hv]
  · rw [hcaseB hB]
    by_cases hv : (turnValue == "1") = true <;>
      simp [List.countP, List.countP.go, turnSelfUpd, turnOppUpd, hv]

def pC5a : Player :=
  { newPlayer 1 "A" with turn := true, turnHistory := [{ startTime := 0 }] }

def gsC5x : GameState := { initGameState with players := [pC5a, newPlayer 2 "B"] }

/-- Counterexample to C5 as stated: applying the turn-change fact
`Entity=A value=0` leaves exactly one player (B) holding the turn, but
B's `turnHistory` is empty — no new entry was appended for the new
holder; only a value`=1` fact appends one. -/
theorem turn_change_c5_counterexample :
    ((turnChangeHandler "A" "0" gsC5x 10).1.players.countP (fun p => p.turn)) = 1 ∧
    ((turnChangeHandler "A" "0" gsC5x 10).1.players.find? (fun p => p.turn)).map
      (fun p => p.turnHistory.length) = some 0 := by
  refine ⟨by decide, by decide⟩

def pC5w1 : Player := newPlayer 1 "Aw"

def pC5w2 : Player := newPlayer 2 "Bw"

def gsC5w : GameState := { initGameState with players := [pC5w1, pC5w2] }

/-- Witness for C5 amended at a concrete value`=1` fact. -/
theorem turn_change_c5_amended_witness :
    turnChangeHandler "Aw" "1" gsC5w 10 =
      ({ gsC5w with players :=
        [turnSelfUpd "1" 10 pC5w1, turnOppUpd "1" pC5w2] }, true) ∧
    (turnChangeHandler "Aw" "1" gsC5w 10).1.players.countP (fun p => p.turn) = 1 :=
  ⟨(turn_change_c5_amended gsC5w pC5w1 pC5w2 "Aw" "1" 10 rfl (by decide)
      (by decide)).1 rfl,
   (turn_change_c5_amended gsC5w pC5w1 pC5w2 "Aw" "1" 10 rfl (by decide)
      (by decide)).2.2 (Or.inl rfl)⟩

end ClaimC5

section ClaimC8

def exC8 : CardEntity :=
  { cardId := some 42, cardName := "Wisp", entityId := 7, player := Pos.bottom,
    tags := [] }

def gsC8x : GameState := { initGameState with entities := [(7, exC8)] }

/-- Counterexample to C8 as stated: the entity is known with the resolved
name "Wisp", yet a fact whose `cardName` is the empty string — set, but
empty — overwrites it: lodash `merge` only skips `undefined` source
fields, so a known value is overwritten with an empty one. -/
theorem resolve_entity_c8_counterexample :
    (lookupA gsC8x.entities 7).map (fun en => en.cardName) = some "Wisp" ∧
    (lookupA (gsC8x.resolveEntity { entityId := 7, cardName := some "" }).entities
      7).map (fun en => en.cardName) = some "" := by
  refine ⟨by decide, by decide⟩

/-- C8 amended: in `resolveEntity`'s merge each field of the stored
entity equals the incoming field whenever the incoming field is present
(defined) — even when it is the empty string or the sentinel name — and
the previously known field only when the incoming one is absent
(`undefined`), falling back to the merge defaults when nothing is known;
the tag map merges key by key with the same rule; `entityId` always
equals the incoming fact's id (the lookup key) and is never changed. -/
theorem resolve_entity_c8_amended (gs : GameState) (e : CardEntityPatch) :
    ∃ m, lookupA (gs.resolveEntity e).entities e.entityId = some m ∧
      m.entityId = e.entityId ∧
      (∀ s, e.cardName = some s → m.cardName = s) ∧
      (e.cardName = none →
        m.cardName = (match lookupA gs.entities e.entityId with
          | some ex => ex.cardName
          | none => "")) ∧
      (∀ c, e.cardId = some c → m.cardId = some c) ∧
      (e.cardId = none →
        m.cardId = (match lookupA gs.entities e.entityId with
          | some ex => ex.cardId
          | none => none)) ∧
      (∀ q, e.player = some q → m.player = q) ∧
      (e.player = none →
        m.player = (match lookupA gs.entities e.entityId with
          | some ex => ex.player
          | none => Pos.bottom)) ∧
      (∀ k, lookupA m.tags k =
        (match lastValA e.tags k with
         | some v => some v
         | none => match lookupA gs.entities e.entityId with
           | some ex => lookupA ex.tags k
           | none => none)) := by
  refine ⟨mergeCardEntity (lookupA gs.entities e.entityId) e, ?_, rfl, ?_, ?_, ?_,
    ?_, ?_, ?_, ?_⟩
  · rw [resolveEntity_eq]
    exact lookupA_upsertA_self _ _ _
  · intro s hs
    unfold mergeCardEntity
    rw [hs]
  · intro hs
    unfold mergeCardEntity
    rw [hs]
  · intro c hc
    unfold mergeCardEntity
    rw [hc]
  · intro hc
    unfold mergeCardEntity
    rw [hc]
  · intro q hq
    unfold mergeCardEntity
    rw [hq]
  · intro hq
    unfold mergeCardEntity
    rw [hq]
  · intro k
    unfold mergeCardEntity
    cases hex : lookupA gs.entities e.entityId with
    | none =>
      rw [lookupA_upsertAllA]
      cases lastValA e.tags k <;> rfl
    | some ex =>
      rw [lookupA_upsertAllA]
      cases lastValA e.tags k <;> rfl

def gsC8w : GameState := { initGameState with entities := [(7, exC8)] }

/-- Witness for C8 amended: a present incoming name wins, an absent
incoming card id keeps the known one. -/
theorem resolve_entity_c8_amended_witness :
    ∃ m, lookupA (gsC8w.resolveEntity
        { entityId := 7, cardName := some "Patches" }).entities 7 = some m ∧
      m.cardName = "Patches" ∧ m.cardId = some 42 ∧ m.entityId = 7 := by
  obtain ⟨m, hl, hid, hsome, hnone, hcs, hcn, -, -, -⟩ :=
    resolve_entity_c8_amended gsC8w { entityId := 7, cardName := some "Patches" }
  exact ⟨m, hl, hsome "Patches" rfl, by rw [hcn rfl]; rfl, hid⟩

end ClaimC8

section ClaimC2

/-- C2: resolving entity `E` with a non-empty, non-sentinel card name,
while `E` is flagged as missing, (a) overwrites the source/target
snapshot of every match-log entry that still references `E` by a
sentinel name with the resolved `{entityId, cardName, cardId}` triple and
leaves every other snapshot untouched, so that no sentinel reference to
`E` remains; (b) refreshes the derived tags of every card referencing
`E` from the merged entity (cards with other ids are untouched); and
(c) calling `resolveEntity` again with the identical fact leaves the
whole `GameState` unchanged. -/
theorem resolve_entity_c2 (gs : GameState) (e : CardEntityPatch) (s : String)
    (hs : e.cardName = some s) (hne : isEmptyS s = false)
    (hmiss : gs.missingEntityIds.contains e.entityId = true) :
    ((gs.resolveEntity e).matchLog.length = gs.matchLog.length) ∧
    (∀ i (h1 : i < gs.matchLog.length)
        (h2 : i < (gs.resolveEntity e).matchLog.length),
      ((isEmptyS ((gs.matchLog.get ⟨i, h1⟩).source.cardName) &&
          ((gs.matchLog.get ⟨i, h1⟩).source.entityId == e.entityId)) = true →
        ((gs.resolveEntity e).matchLog.get ⟨i, h2⟩).source =
          resolvedProps e.entityId s
            (mergeCardEntity (lookupA gs.entities e.entityId) e).cardId
            ((gs.matchLog.get ⟨i, h1⟩).source)) ∧
      ((isEmptyS ((gs.matchLog.get ⟨i, h1⟩).source.cardName) &&
          ((gs.matchLog.get ⟨i, h1⟩).source.entityId == e.entityId)) = false →
        ((gs.resolveEntity e).matchLog.get ⟨i, h2⟩).source =
          (gs.matchLog.get ⟨i, h1⟩).source) ∧
      (((gs.resolveEntity e).matchLog.get ⟨i, h2⟩).targets.length =
        (gs.matchLog.get ⟨i, h1⟩).targets.length) ∧
      (∀ j (hj1 : j < (gs.matchLog.get ⟨i, h1⟩).targets.length)
          (hj2 : j < ((gs.resolveEntity e).matchLog.get ⟨i, h2⟩).targets.length),
        ((isEmptyS (((gs.matchLog.get ⟨i, h1⟩).targets.get ⟨j, hj1⟩).cardName) &&
            (((gs.matchLog.get ⟨i, h1⟩).targets.get ⟨j, hj1⟩).entityId ==
              e.entityId)) = true →
          ((gs.resolveEntity e).matchLog.get ⟨i, h2⟩).targets.get ⟨j, hj2⟩ =
            resolvedProps e.entityId s
              (mergeCardEntity (lookupA gs.entities e.entityId) e).cardId
              ((gs.matchLog.get ⟨i, h1⟩).targets.get ⟨j, hj1⟩)) ∧
        ((isEmptyS (((gs.matchLog.get ⟨i, h1⟩).targets.get ⟨j, hj1⟩).cardName) &&
            (((gs.matchLog.get ⟨i, h1⟩).targets.get ⟨j, hj1⟩).entityId ==
              e.entityId)) = false →
          ((gs.resolveEntity e).matchLog.get ⟨i, h2⟩).targets.get ⟨j, hj2⟩ =
            (gs.matchLog.get ⟨i, h1⟩).targets.get ⟨j, hj1⟩))) ∧
    (∀ entry ∈ (gs.resolveEntity e).matchLog,
      (isEmptyS entry.source.cardName && (entry.source.entityId == e.entityId)) =
        false ∧
      ∀ t ∈ entry.targets,
        (isEmptyS t.cardName && (t.entityId == e.entityId)) = false) ∧
    ((gs.resolveEntity e).players.length = gs.players.length) ∧
    (∀ i (h1 : i < gs.players.length)
        (h2 : i < (gs.resolveEntity e).players.length),
      (((gs.resolveEntity e).players.get ⟨i, h2⟩).cards.length =
        (gs.players.get ⟨i, h1⟩).cards.length) ∧
      (∀ j (hj1 : j < (gs.players.get ⟨i, h1⟩).cards.length)
          (hj2 : j < ((gs.resolveEntity e).players.get ⟨i, h2⟩).cards.length),
        ((((gs.players.get ⟨i, h1⟩).cards.get ⟨j, hj1⟩).entityId == e.entityId) =
            true →
          ((gs.resolveEntity e).players.get ⟨i, h2⟩).cards.get ⟨j, hj2⟩ =
            (match identifySpecialTags
                (some (mergeCardEntity (lookupA gs.entities e.entityId) e)) with
             | some ts =>
               { (gs.players.get ⟨i, h1⟩).cards.get ⟨j, hj1⟩ with tags := ts }
             | none => (gs.players.get ⟨i, h1⟩).cards.get ⟨j, hj1⟩)) ∧
        ((((gs.players.get ⟨i, h1⟩).cards.get ⟨j, hj1⟩).entityId == e.entityId) =
            false →
          ((gs.resolveEntity e).players.get ⟨i, h2⟩).cards.get ⟨j, hj2⟩ =
            (gs.players.get ⟨i, h1⟩).cards.get ⟨j, hj1⟩))) ∧
    ((gs.resolveEntity e).resolveEntity e = gs.resolveEntity e) := by
  have hmc : (mergeCardEntity (lookupA gs.entities e.entityId) e).cardName = s := by
    unfold mergeCardEntity
    rw [hs]
  have hguard : (isEmptyS (mergeCardEntity (lookupA gs.entities e.entityId)
      e).cardName || !(gs.missingEntityIds.contains e.entityId)) = false := by
    rw [hmc, hne, hmiss]
    rfl
  have hML : (gs.resolveEntity e).matchLog = gs.matchLog.map (patchEntry e.entityId
      s (mergeCardEntity (lookupA gs.entities e.entityId) e).cardId) := by
    have h := congrArg GameState.matchLog (resolveEntity_eq gs e)
    rw [h]
    show (if (isEmptyS (mergeCardEntity (lookupA gs.entities e.entityId) e).cardName
        || !(gs.missingEntityIds.contains e.entityId)) = true then gs.matchLog
      else _) = _
    rw [hguard, hmc]
    rfl
  have hPl : (gs.resolveEntity e).players = gs.players.map (fun p =>
      { p with cards := p.cards.map (refreshCardTags
        (upsertA gs.entities e.entityId
          (mergeCardEntity (lookupA gs.entities e.entityId) e)) e.entityId) }) := by
    rw [resolveEntity_eq]
  refine ⟨?_, ?_, ?_, ?_, ?_, resolveEntity_idem gs e⟩
  · rw [hML, List.length_map]
  · intro i h1 h2
    have hget : (gs.resolveEntity e).matchLog.get ⟨i, h2⟩ =
        patchEntry e.entityId s
          (mergeCardEntity (lookupA gs.entities e.entityId) e).cardId
          (gs.matchLog.get ⟨i, h1⟩) := by
      simp only [hML, List.get_eq_getElem, List.getElem_map]
    refine ⟨?_, ?_, ?_, ?_⟩
    · intro hcond
      rw [hget]
      show patchProps e.entityId s _ (gs.matchLog.get ⟨i, h1⟩).source = _
      unfold patchProps
      rw [if_pos hcond]
    · intro hcond
      rw [hget]
      show patchProps e.entityId s _ (gs.matchLog.get ⟨i, h1⟩).source = _
      unfold patchProps
      rw [if_neg (by simp only [hcond]; simp)]
    · rw [hget]
      show ((gs.matchLog.get ⟨i, h1⟩).targets.map (patchProps e.entityId s
        _)).length = _
      rw [List.length_map]
    · intro j hj1 hj2
      have hgett : ((gs.resolveEntity e).matchLog.get ⟨i, h2⟩).targets.get
          ⟨j, hj2⟩ = patchProps e.entityId s
            (mergeCardEntity (lookupA gs.entities e.entityId) e).cardId
            ((gs.matchLog.get ⟨i, h1⟩).targets.get ⟨j, hj1⟩) := by
        simp only [List.get_eq_getElem, hML, List.getElem_map, patchEntry]
      refine ⟨?_, ?_⟩
      · intro hcond
        rw [hgett]
        unfold patchProps
        rw [if_pos hcond]
      · intro hcond
        rw [hgett]
        unfold patchProps
        rw [if_neg (by simp only [hcond]; simp)]
  · intro entry hentry
    rw [hML] at hentry
    obtain ⟨e0, he0, rfl⟩ := List.mem_map.1 hentry
    refine ⟨?_, ?_⟩
    · exact patchProps_cardName_not_matching hne e.entityId _ e0.source
    · intro t ht
      have ht2 : t ∈ e0.targets.map (patchProps e.entityId s
          (mergeCardEntity (lookupA gs.entities e.entityId) e).cardId) := ht
      obtain ⟨t0, ht0, rfl⟩ := List.mem_map.1 ht2
      exact patchProps_cardName_not_matching hne e.entityId _ t0
  · rw [hPl, List.length_map]
  · intro i h1 h2
    have hgp : (gs.resolveEntity e).players.get ⟨i, h2⟩ =
        { gs.players.get ⟨i, h1⟩ with
          cards := (gs.players.get ⟨i, h1⟩).cards.map (refreshCardTags
            (upsertA gs.entities e.entityId
              (mergeCardEntity (lookupA gs.entities e.entityId) e)) e.entityId) } := by
      simp only [hPl, List.get_eq_getElem, List.getElem_map]
    refine ⟨?_, ?_⟩
    · rw [hgp]
      show ((gs.players.get ⟨i, h1⟩).cards.map _).length = _
      rw [List.length_map]
    · intro j hj1 hj2
      have hgc : ((gs.resolveEntity e).players.get ⟨i, h2⟩).cards.get ⟨j, hj2⟩ =
          refreshCardTags (upsertA gs.entities e.entityId
              (mergeCardEntity (lookupA gs.entities e.entityId) e)) e.entityId
            ((gs.players.get ⟨i, h1⟩).cards.get ⟨j, hj1⟩) := by
        simp only [List.get_eq_getElem, hPl, List.getElem_map]
      refine ⟨?_, ?_⟩
      · intro hcond
        rw [hgc]
        unfold refreshCardTags
        rw [if_pos hcond]
        have hcid : ((gs.players.get ⟨i, h1⟩).cards.get ⟨j, hj1⟩).entityId =
            e.entityId := by simpa using hcond
        have hlk : lookupA (upsertA gs.entities e.entityId
            (mergeCardEntity (lookupA gs.entities e.entityId) e))
            (((gs.players.get ⟨i, h1⟩).cards.get ⟨j, hj1⟩).entityId) =
            some (mergeCardEntity (lookupA gs.entities e.entityId) e) := by
          rw [hcid]
          exact lookupA_upsertA_self _ _ _
        rw [hlk]
      · intro hcond
        rw [hgc]
        unfold refreshCardTags
        rw [if_neg (by simp only [hcond]; simp)]

def srcC2 : EntityProps :=
  { entityId := 9, cardName := "", player := Pos.bottom }

def tgtC2 : EntityProps :=
  { entityId := 9, cardName := UNKNOWN_CARDNAME, player := Pos.top }

def entryC2 : MatchLogEntry :=
  { type := MatchLogType.play, source := srcC2, targets := [tgtC2] }

def cardC2 : Card :=
  { entityId := 9, state := CardState.HAND, isSpawnedCard := false, tags := [] }

def playerC2 : Player := { newPlayer 1 "P" with cards := [cardC2] }

def gsC2w : GameState :=
  ({ initGameState with players := [playerC2] }).addMatchLogEntry [entryC2]

def patchC2 : CardEntityPatch :=
  { entityId := 9, cardName := some "Ragnaros",
    tags := [("CORRUPTEDCARD", "1")] }

/-- Witness for C2 at a concrete state: one sentinel-source entry, one
sentinel-named target and one card referencing entity 9; resolving with
the name "Ragnaros" and a corrupt tag patches the entry and refreshes
the card, and resolving again is the identity. -/
theorem resolve_entity_c2_witness :
    gsC2w.missingEntityIds.contains 9 = true ∧
    ((gsC2w.resolveEntity patchC2).matchLog.length = gsC2w.matchLog.length) ∧
    (∀ entry ∈ (gsC2w.resolveEntity patchC2).matchLog,
      (isEmptyS entry.source.cardName && (entry.source.entityId == 9)) = false ∧
      ∀ t ∈ entry.targets,
        (isEmptyS t.cardName && (t.entityId == 9)) = false) ∧
    ((gsC2w.resolveEntity patchC2).resolveEntity patchC2 =
      gsC2w.resolveEntity patchC2) := by
  obtain ⟨hlen, -, hnone, -, -, hidem⟩ :=
    resolve_entity_c2 gsC2w patchC2 "Ragnaros" rfl (by decide) (by decide)
  exact ⟨by decide, hlen, hnone, hidem⟩

end ClaimC2

section ZoneChangeLemmas

theorem zoneApplyFrom_position (questMap : String → Option QuestTemplate)
    (secretToClass : String → Option String) (g : ZoneChangeGroups)
    (cardDbfId : Nat) (p : Player) :
    (zoneApplyFrom questMap secretToClass g cardDbfId p).position = p.position := by
  simp only [zoneApplyFrom]
  repeat' split
  all_goals rfl

theorem zoneApplyTo_position (questMap : String → Option QuestTemplate)
    (secretToClass : String → Option String) (g : ZoneChangeGroups)
    (cardDbfId : Nat) (mull : Bool) (now : Int) (p : Player) :
    (zoneApplyTo questMap secretToClass g cardDbfId mull now p).position =
      p.position := by
  simp only [zoneApplyTo]
  repeat' split
  all_goals rfl

theorem zoneApplyFrom_cards (questMap : String → Option QuestTemplate)
    (secretToClass : String → Option String) (g : ZoneChangeGroups)
    (cardDbfId : Nat) (p : Player) :
    (zoneApplyFrom questMap secretToClass g cardDbfId p).cards =
      (if (g.fromZone == some Zone.Deck || g.fromZone == some Zone.Hand) = true then
        putCards p.cards g.entityId (some cardDbfId) (some g.entityName) none
          (some CardState.OTHERS)
      else p.cards) := by
  simp only [zoneApplyFrom]
  repeat' split
  all_goals rfl

theorem zoneApplyTo_cards (questMap : String → Option QuestTemplate)
    (secretToClass : String → Option String) (g : ZoneChangeGroups)
    (cardDbfId : Nat) (mull : Bool) (now : Int) (p : Player) :
    (zoneApplyTo questMap secretToClass g cardDbfId mull now p).cards =
      (match g.toZone with
       | some Zone.Deck => putCards p.cards g.entityId (some cardDbfId)
           (some g.entityName) (some (!mull)) (some CardState.DECK)
       | some Zone.Hand => putCards p.cards g.entityId (some cardDbfId)
           (some g.entityName) (some (!mull)) (some CardState.HAND)
       | _ => p.cards) := by
  simp only [zoneApplyTo]
  repeat' split
  all_goals rfl

theorem zoneApplyFrom_nodup (questMap : String → Option QuestTemplate)
    (secretToClass : String → Option String) (g : ZoneChangeGroups)
    (cardDbfId : Nat) (p : Player)
    (h : (p.cards.map (fun c => c.entityId)).Nodup) :
    ((zoneApplyFrom questMap secretToClass g cardDbfId p).cards.map
      (fun c => c.entityId)).Nodup := by
  rw [zoneApplyFrom_cards]
  split
  · exact putCards_nodup _ _ _ _ _ _ h
  · exact h

theorem zoneApplyTo_nodup (questMap : String → Option QuestTemplate)
    (secretToClass : String → Option String) (g : ZoneChangeGroups)
    (cardDbfId : Nat) (mull : Bool) (now : Int) (p : Player)
    (h : (p.cards.map (fun c => c.entityId)).Nodup) :
    ((zoneApplyTo questMap secretToClass g cardDbfId mull now p).cards.map
      (fun c => c.entityId)).Nodup := by
  rw [zoneApplyTo_cards]
  split
  · exact putCards_nodup _ _ _ _ _ _ h
  · exact putCards_nodup _ _ _ _ _ _ h
  · exact h

theorem assignPositions_forall {P : Player → Prop}
    (hP : ∀ p pos, P p → P { p with position := pos }) (toTeam : Option Team)
    (playerId : Nat) (players : List Player) (hl : ∀ p ∈ players, P p) :
    ∀ p ∈ assignPositions toTeam playerId players, P p := by
  have step : ∀ (l : List Player) (pred : Player → Bool) (pos : Pos),
      (∀ p ∈ l, P p) →
      ∀ p ∈ updateFirst l pred (fun p => { p with position := pos }), P p :=
    fun l pred pos h => updateFirst_forall l pred _ h (fun a ha => hP a pos ha)
  cases toTeam with
  | none =>
    have heq : assignPositions none playerId players = players := rfl
    rw [heq]
    exact hl
  | some t =>
    cases t with
    | Friendly =>
      have heq : assignPositions (some Team.Friendly) playerId players =
          updateFirst (updateFirst players (fun p => p.id == playerId)
            (fun p => { p with position := Pos.bottom }))
            (fun p => !(p.id == playerId))
            (fun p => { p with position := Pos.top }) := rfl
      rw [heq]
      exact step _ _ Pos.top (step players _ Pos.bottom hl)
    | Opposing =>
      have heq : assignPositions (some Team.Opposing) playerId players =
          updateFirst (updateFirst players (fun p => p.id == playerId)
            (fun p => { p with position := Pos.top }))
            (fun p => !(p.id == playerId))
            (fun p => { p with position := Pos.bottom }) := rfl
      rw [heq]
      exact step _ _ Pos.bottom (step players _ Pos.top hl)

theorem applyByTeam_forall {P : Player → Prop} (players : List Player)
    (team : Option Team) (f : Player → Player) (hl : ∀ p ∈ players, P p)
    (hf : ∀ p, P p → P (f p)) : ∀ p ∈ applyByTeam players team f, P p := by
  unfold applyByTeam
  cases team with
  | none => exact hl
  | some t => exact updateFirst_forall _ _ _ hl hf

theorem zoneChangeHandler_eq (cardData : String → Option CardType)
    (questMap : String → Option QuestTemplate)
    (secretToClass : String → Option String) (g : ZoneChangeGroups)
    (gs : GameState) (now : Int) {ct : CardType} {player opp : Player}
    (hcd : cardData g.cardId = some ct)
    (hpl : gs.getPlayerById g.playerId = some player)
    (hop : gs.players.find? (fun p => !(p.id == player.id)) = some opp) :
    zoneChangeHandler cardData questMap secretToClass g gs now =
      ({ gs with players :=
        (applyByTeam
          (applyByTeam
            (if (gs.mulliganActive &&
                (g.toZone == some Zone.Hand || g.toZone == some Zone.Deck)) = true
             then assignPositions g.toTeam player.id gs.players else gs.players)
            g.fromTeam (zoneApplyFrom questMap secretToClass g ct.dbfId))
          g.toTeam
          (zoneApplyTo questMap secretToClass g ct.dbfId gs.mulliganActive now)) },
        true) := by
  unfold zoneChangeHandler
  simp only [hcd, hpl, hop]

theorem teamPos_ne {t1 t2 : Team} (h : t1 ≠ t2) : teamPos t1 ≠ teamPos t2 := by
  cases t1 <;> cases t2 <;> simp [teamPos] at h ⊢

theorem applyByTeam_find?_some (players : List Player) (tt : Team)
    (f : Player → Player) (hf : ∀ a, (f a).position = a.position) (tp2 : Player)
    (h : (applyByTeam players (some tt) f).find?
      (fun p => p.position == teamPos tt) = some tp2) :
    ∃ tp1, players.find? (fun p => p.position == teamPos tt) = some tp1 ∧
      tp2 = f tp1 := by
  unfold applyByTeam at h
  rw [updateFirst_find?_self players _ f (fun a => by
    show ((f a).position == teamPos tt) = (a.position == teamPos tt)
    rw [hf])] at h
  obtain ⟨tp1, htp1, htp2⟩ := Option.map_eq_some'.1 h
  exact ⟨tp1, htp1, htp2.symm⟩

end ZoneChangeLemmas

section ClaimC1

/-- C1 amended: (i) every player's `cards` collection keeps pairwise
distinct entity ids through any zone-change fact; (ii) when the fact
executes (all lookups succeed) and the destination zone is DECK or HAND,
the destination team's player ends up with a card for the entity whose
`state` is that destination zone; but (iii) a cross-team move does not
remove the entity from the source player's collection — the source entry
is kept and marked `OTHERS` — so an entity id may appear in both
players' collections at once, contrary to the original claim's
exactly-one-collection invariant. -/
theorem zone_change_c1_amended (cardData : String → Option CardType)
    (questMap : String → Option QuestTemplate)
    (secretToClass : String → Option String) (g : ZoneChangeGroups)
    (gs : GameState) (now : Int) :
    ((∀ p ∈ gs.players, (p.cards.map (fun c => c.entityId)).Nodup) →
      ∀ p2 ∈ (zoneChangeHandler cardData questMap secretToClass g gs now).1.players,
        (p2.cards.map (fun c => c.entityId)).Nodup) ∧
    (∀ ct player opp tt tp2, cardData g.cardId = some ct →
      gs.getPlayerById g.playerId = some player →
      gs.players.find? (fun p => !(p.id == player.id)) = some opp →
      g.toTeam = some tt →
      (g.toZone = some Zone.Deck ∨ g.toZone = some Zone.Hand) →
      (zoneChangeHandler cardData questMap secretToClass g gs now).1.players.find?
        (fun p => p.position == teamPos tt) = some tp2 →
      ∃ c ∈ tp2.cards, c.entityId = g.entityId ∧
        c.state = (if g.toZone = some Zone.Deck then CardState.DECK
          else CardState.HAND)) ∧
    (∀ ct player opp ft fp c, cardData g.cardId = some ct →
      gs.getPlayerById g.playerId = some player →
      gs.players.find? (fun p => !(p.id == player.id)) = some opp →
      gs.mulliganActive = false →
      g.fromTeam = some ft → g.toTeam ≠ g.fromTeam →
      (g.fromZone = some Zone.Deck ∨ g.fromZone = some Zone.Hand) →
      gs.players.find? (fun p => p.position == teamPos ft) = some fp →
      c ∈ fp.cards → c.entityId = g.entityId →
      ∃ fp2, (zoneChangeHandler cardData questMap secretToClass g gs
          now).1.players.find? (fun p => p.position == teamPos ft) = some fp2 ∧
        ∃ c2 ∈ fp2.cards, c2.entityId = g.entityId ∧
          c2.state = CardState.OTHERS) := by
  refine ⟨?_, ?_, ?_⟩
  · -- (i) per-player distinctness is preserved
    intro hinv
    cases hcd : cardData g.cardId with
    | none =>
      unfold zoneChangeHandler
      rw [hcd]
      exact hinv
    | some ct =>
      cases hpl : gs.getPlayerById g.playerId with
      | none =>
        unfold zoneChangeHandler
        simp only [hcd, hpl]
        exact hinv
      | some player =>
        cases hop : gs.players.find? (fun p => !(p.id == player.id)) with
        | none =>
          unfold zoneChangeHandler
          simp only [hcd, hpl, hop]
          exact hinv
        | some opp =>
          rw [zoneChangeHandler_eq cardData questMap secretToClass g gs now hcd
            hpl hop]
          intro p2 hp2
          have h0 : ∀ p ∈ (if (gs.mulliganActive && (g.toZone == some Zone.Hand ||
              g.toZone == some Zone.Deck)) = true
              then assignPositions g.toTeam player.id gs.players else gs.players),
              (p.cards.map (fun c => c.entityId)).Nodup := by
            split
            · exact assignPositions_forall (fun p pos h => h) g.toTeam player.id
                gs.players hinv
            · exact hinv
          have h1 := applyByTeam_forall _ g.fromTeam _ h0
            (fun p h => zoneApplyFrom_nodup questMap secretToClass g ct.dbfId p h)
          have h2 := applyByTeam_forall _ g.toTeam _ h1
            (fun p h => zoneApplyTo_nodup questMap secretToClass g ct.dbfId
              gs.mulliganActive now p h)
          exact h2 p2 hp2
  · -- (ii) destination player holds the entity with the destination state
    intro ct player opp tt tp2 hcd hpl hop htt htz hfind
    rw [zoneChangeHandler_eq cardData questMap secretToClass g gs now hcd hpl
      hop] at hfind
    rw [htt] at hfind
    obtain ⟨tp1, htp1, htp2⟩ := applyByTeam_find?_some
      (applyByTeam
        (if (gs.mulliganActive &&
            (g.toZone == some Zone.Hand || g.toZone == some Zone.Deck)) = true
         then assignPositions (some tt) player.id gs.players else gs.players)
        g.fromTeam (zoneApplyFrom questMap secretToClass g ct.dbfId))
      tt (zoneApplyTo questMap secretToClass g ct.dbfId gs.mulliganActive now)
      (fun a => zoneApplyTo_position questMap secretToClass g ct.dbfId
        gs.mulliganActive now a) tp2 hfind
    subst htp2
    have hcards := zoneApplyTo_cards questMap secretToClass g ct.dbfId
      gs.mulliganActive now tp1
    rcases htz with hD | hH
    · rw [hD] at hcards
      rw [if_pos hD]
      obtain ⟨c, hc, hce, hcs⟩ := putCards_mem_state tp1.cards g.entityId
        (some ct.dbfId) (some g.entityName) (!gs.mulliganActive) CardState.DECK
      refine ⟨c, ?_, hce, hcs⟩
      rw [hcards]
      exact hc
    · rw [hH] at hcards
      rw [if_neg (by rw [hH]; intro hcontra; cases hcontra)]
      obtain ⟨c, hc, hce, hcs⟩ := putCards_mem_state tp1.cards g.entityId
        (some ct.dbfId) (some g.entityName) (!gs.mulliganActive) CardState.HAND
      refine ⟨c, ?_, hce, hcs⟩
      rw [hcards]
      exact hc
  · -- (iii) the source player's entry is kept, marked OTHERS
    intro ct player opp ft fp c hcd hpl hop hmull hft hne hfz hfp hc hcid
    rw [zoneChangeHandler_eq cardData questMap secretToClass g gs now hcd hpl hop]
    have hmm : (gs.mulliganActive &&
        (g.toZone == some Zone.Hand || g.toZone == some Zone.Deck)) = false := by
      rw [hmull]
      rfl
    rw [hmm]
    have hfself := updateFirst_find?_self gs.players
      (fun p => p.position == teamPos ft)
      (zoneApplyFrom questMap secretToClass g ct.dbfId)
      (fun a => by
        show ((zoneApplyFrom questMap secretToClass g ct.dbfId a).position ==
          teamPos ft) = (a.position == teamPos ft)
        rw [zoneApplyFrom_position])
    have hfrom : (applyByTeam gs.players g.fromTeam
        (zoneApplyFrom questMap secretToClass g ct.dbfId)).find?
          (fun p => p.position == teamPos ft) =
        some (zoneApplyFrom questMap secretToClass g ct.dbfId fp) := by
      rw [hft]
      show (updateFirst gs.players (fun p => p.position == teamPos ft)
        (zoneApplyFrom questMap secretToClass g ct.dbfId)).find?
          (fun p => p.position == teamPos ft) = _
      rw [hfself, hfp]
      rfl
    have hthrough : (applyByTeam (applyByTeam gs.players g.fromTeam
        (zoneApplyFrom questMap secretToClass g ct.dbfId)) g.toTeam
          (zoneApplyTo questMap secretToClass g ct.dbfId gs.mulliganActive
            now)).find? (fun p => p.position == teamPos ft) =
        some (zoneApplyFrom questMap secretToClass g ct.dbfId fp) := by
      cases htt : g.toTeam with
      | none =>
        show (applyByTeam gs.players g.fromTeam _).find? _ = _
        exact hfrom
      | some tt =>
        have httne : tt ≠ ft := by
          intro hcontra
          rw [htt, hft, hcontra] at hne
          exact hne rfl
        show (updateFirst (applyByTeam gs.players g.fromTeam
          (zoneApplyFrom questMap secretToClass g ct.dbfId))
          (fun p => p.position == teamPos tt)
          (zoneApplyTo questMap secretToClass g ct.dbfId gs.mulliganActive
            now)).find? (fun p => p.position == teamPos ft) = _
        rw [updateFirst_find?_other _ _ _ _
          (fun a => by
            show ((zoneApplyTo questMap secretToClass g ct.dbfId
              gs.mulliganActive now a).position == teamPos ft) =
              (a.position == teamPos ft)
            rw [zoneApplyTo_position])
          (fun a ha => by
            rw [beq_eq_false_iff_ne]
            intro hpos
            have heqp : teamPos ft = teamPos tt := by
              rw [← hpos]
              exact (beq_iff_eq.1 ha).symm
            exact teamPos_ne (fun h => httne h.symm) heqp)]
        exact hfrom
    refine ⟨zoneApplyFrom questMap secretToClass g ct.dbfId fp, hthrough, ?_⟩
    have hcards := zoneApplyFrom_cards questMap secretToClass g ct.dbfId fp
    have hguard : (g.fromZone == some Zone.Deck ||
        g.fromZone == some Zone.Hand) = true := by
      rcases hfz with h | h <;> rw [h] <;> rfl
    rw [hguard] at hcards
    obtain ⟨c2, hc2, hc2e, hc2s⟩ := putCards_retain hc hcid (some ct.dbfId)
      (some g.entityName) none CardState.OTHERS
    refine ⟨c2, ?_, hc2e, hc2s⟩
    rw [hcards]
    exact hc2

def cdC1 : String → Option CardType :=
  fun s => if s == "EX1" then some ⟨100, "EX1", "TestCard"⟩ else none

def qmC1 : String → Option QuestTemplate := fun _ => none

def scC1 : String → Option String := fun _ => none

def pC1A : Player := { newPlayer 1 "A" with position := Pos.bottom }

def pC1B : Player := { newPlayer 2 "B" with position := Pos.top }

def gsC1 : GameState := { initGameState with players := [pC1A, pC1B] }

def factC1a : ZoneChangeGroups :=
  { entityName := "TestCard", entityId := 5, cardId := "EX1", playerId := 1,
    fromTeam := none, fromZone := none, toTeam := some Team.Friendly,
    toZone := some Zone.Hand }

def factC1b : ZoneChangeGroups :=
  { entityName := "TestCard", entityId := 5, cardId := "EX1", playerId := 1,
    fromTeam := some Team.Friendly, fromZone := some Zone.Hand,
    toTeam := some Team.Opposing, toZone := some Zone.Hand }

def gsC1one : GameState := (zoneChangeHandler cdC1 qmC1 scC1 factC1a gsC1 0).1

def gsC1two : GameState := (zoneChangeHandler cdC1 qmC1 scC1 factC1b gsC1one 0).1

/-- Counterexample to C1 as stated: entity 5 is dealt into the bottom
player's hand, then moved cross-team into the top player's hand; after
the second zone change the entity id appears in BOTH players' `cards`
collections — kept as `OTHERS` in the source and inserted as `HAND` in
the destination — so it does not appear in exactly one collection. -/
theorem zone_change_c1_counterexample :
    ((gsC1two.players.filter
      (fun p => p.cards.any (fun c => c.entityId == 5))).length = 2) ∧
    ((gsC1two.getPlayerByPosition Pos.bottom).map
      (fun p => p.cards.map (fun c => (c.entityId, c.state)))) =
      some [(5, CardState.OTHERS)] ∧
    ((gsC1two.getPlayerByPosition Pos.top).map
      (fun p => p.cards.map (fun c => (c.entityId, c.state)))) =
      some [(5, CardState.HAND)] := by
  refine ⟨by decide, by decide, by decide⟩

def cC1 : Card :=
  { entityId := 5, cardId := some 100, cardName := some "TestCard",
    state := CardState.HAND, isSpawnedCard := true, tags := [] }

def pC1APost : Player := { pC1A with cards := [cC1] }

/-- Witness for C1 amended at the counterexample's cross-team move: the
source (bottom) player keeps the entity with state `OTHERS`. -/
theorem zone_change_c1_amended_witness :
    ∃ fp2, gsC1two.players.find?
        (fun p => p.position == teamPos Team.Friendly) = some fp2 ∧
      ∃ c2 ∈ fp2.cards, c2.entityId = factC1b.entityId ∧
        c2.state = CardState.OTHERS :=
  (zone_change_c1_amended cdC1 qmC1 scC1 factC1b gsC1one 0).2.2
    ⟨100, "EX1", "TestCard"⟩ pC1APost pC1B Team.Friendly pC1APost cC1
    (by decide) (by decide) (by decide) (by decide) rfl (by decide) (Or.inr rfl)
    (by decide) (by decide) rfl

end ClaimC1

end HSP
